import Mathlib

/-!
Verification of the bowling scoring and league statistics engine of the
dbbl-api repository.  The definitions below are shallow embeddings of the
TypeScript services:

* `calculateBowlerTotal`, `countStrikes` — `MatchesService.calculateBowlerTotal`
  and `MatchesService.countStrikes` (ten-pin scoring with look-ahead bonuses).
* `extendTeamSets`, `teamTotals`, `gamePoints`, `submitScores` —
  `MatchesService.submitScores` (per-game settlement and match aggregates).
* `deleteSubstitution` — `MatchesService.deleteSubstitution`.
* `bowlerToTeam` — the substitution-aware attribution map built in
  `SeasonsService.getStats`.
* `buildRoundRobin` — `SeasonsService.buildRoundRobin` (circle method).

Persistence is modelled by explicit state: a `Match` value carries its two
rosters, its substitutions and its `Game` rows; a `Game` row carries the
frames persisted for it, keyed by bowler id, mirroring the unique
`(gameId, bowlerId, frameNumber)` constraint of the schema.
-/

namespace Dbbl

/-- One persisted frame for one bowler in one game
(`Frame` model: `frameNumber` 1–10, `ball1Score` required,
`ball2Score`/`ball3Score` nullable, `isBall1Split` flag). -/
structure Frame where
  frameNumber : Nat
  ball1Score : Int
  ball2Score : Option Int
  ball3Score : Option Int
  isBall1Split : Bool
deriving Repr, DecidableEq

/-- One bowler's entry in a score submission (`SubmitScoresDto.bowlers[i]`). -/
structure BowlerFrames where
  bowlerId : String
  frames : List Frame
deriving Repr, DecidableEq

/-- A score submission for one game of a match (`SubmitScoresDto`). -/
structure SubmitScoresDto where
  gameNumber : Nat
  bowlers : List BowlerFrames
deriving Repr, DecidableEq

/-- A match substitution record (`MatchSubstitution` model). -/
structure Substitution where
  id : String
  originalBowlerId : String
  substituteBowlerId : String
  teamId : String
deriving Repr, DecidableEq

/-- A persisted `Game` row.  The frames persisted for the game are carried
inline, keyed by bowler id; score/strike/point fields are null until the
game is settled. -/
structure Game where
  gameNumber : Nat
  frames : List (String × Frame)
  homeTeamScore : Option Int
  awayTeamScore : Option Int
  homeTeamStrikes : Option Int
  awayTeamStrikes : Option Int
  homeTeamPoints : Option Int
  awayTeamPoints : Option Int
deriving Repr, DecidableEq

/-- A persisted `Match` row together with the related data `submitScores`
reads: the two teams' rosters (lists of bowler ids), the substitutions and
the games of the match. -/
structure Match where
  homeTeamId : String
  awayTeamId : String
  homeBowlers : List String
  awayBowlers : List String
  substitutions : List Substitution
  games : List Game
  homeTeamPoints : Option Int
  awayTeamPoints : Option Int
  winningTeamId : Option String
deriving Repr, DecidableEq

/-! ## Score Calculator -/

/-- The defensive sort `[...frames].sort((a, b) => a.frameNumber - b.frameNumber)`
at the top of `calculateBowlerTotal` (JavaScript sort is stable). -/
def sortFrames (frames : List Frame) : List Frame :=
  frames.insertionSort (fun a b => a.frameNumber ≤ b.frameNumber)

/-- The loop body of `calculateBowlerTotal` on the sorted frame list: each
frame's contribution looks ahead at the next one or two entries of the
sorted array (`sorted[i + 1]`, `sorted[i + 2]`). -/
def calcFrames : List Frame → Int
  | [] => 0
  | frame :: rest =>
    let b1 := frame.ball1Score
    let b2 := frame.ball2Score.getD 0
    let b3 := frame.ball3Score.getD 0
    let contrib : Int :=
      if frame.frameNumber = 10 then
        b1 + b2 + b3
      else if b1 = 10 then
        10 +
          (match rest with
           | [] => 0
           | next :: rest2 =>
             next.ball1Score +
               (if next.ball1Score = 10 ∧ next.frameNumber < 10 then
                  (match rest2 with
                   | [] => 0
                   | next2 :: _ => next2.ball1Score)
                else next.ball2Score.getD 0))
      else if b1 + b2 = 10 then
        10 +
          (match rest with
           | [] => 0
           | next :: _ => next.ball1Score)
      else b1 + b2
    contrib + calcFrames rest

/-- `MatchesService.calculateBowlerTotal`: total pin score of one bowler's
submitted frames. -/
def calculateBowlerTotal (frames : List Frame) : Int :=
  calcFrames (sortFrames frames)

/-- Strike contribution of a single frame in `MatchesService.countStrikes`:
`ball1Score === 10` counts once, and in the tenth frame `ball2Score === 10`
and `ball3Score === 10` each count as well. -/
def frameStrikes (f : Frame) : Int :=
  (if f.ball1Score = 10 then 1 else 0) +
    (if f.frameNumber = 10 then
       (if f.ball2Score = some 10 then 1 else 0) +
         (if f.ball3Score = some 10 then 1 else 0)
     else 0)

/-- `MatchesService.countStrikes`. -/
def countStrikes (frames : List Frame) : Int :=
  frames.foldl (fun count f => count + frameStrikes f) 0

/-- The perfect game of claim C1: frames 1–9 each a single strike, frame 10
with all three balls 10. -/
def perfectGameFrames : List Frame :=
  (List.range 9).map (fun i => ⟨i + 1, 10, none, none, false⟩) ++
    [⟨10, 10, some 10, some 10, false⟩]

/-- An explicit all-zero frame: first ball 0, second ball 0, no third ball.
Used to express that missing trailing bonus balls are scored as 0. -/
def zeroFrame (frameNumber : Nat) : Frame :=
  ⟨frameNumber, 0, some 0, none, false⟩

/-- A partial submission with a gap: a strike in frame 1 and an open frame 3
(3 then 4), with no frame 2.  `calculateBowlerTotal` takes the strike's
bonus from frame 3 — the next frame present in sorted order — rather than
treating the absent frame 2 as 0. -/
def gapFrames : List Frame :=
  [⟨1, 10, none, none, false⟩, ⟨3, 3, some 4, none, false⟩]

/-! ## Match Settlement (`MatchesService.submitScores`) -/

/-- The roster-set extension loop of `submitScores`: starting from the two
teams' bowler-id sets, each substitution's `substituteBowlerId` is added to
whichever set already contains its `originalBowlerId` (home checked
first). -/
def extendTeamSets (home away : List String) (subs : List Substitution) :
    List String × List String :=
  subs.foldl
    (fun sets sub =>
      if sub.originalBowlerId ∈ sets.1 then (sub.substituteBowlerId :: sets.1, sets.2)
      else if sub.originalBowlerId ∈ sets.2 then (sets.1, sub.substituteBowlerId :: sets.2)
      else sets)
    (home, away)

/-- The substitution-extended home and away bowler-id sets of a match. -/
def matchTeamSets (m : Match) : List String × List String :=
  extendTeamSets m.homeBowlers m.awayBowlers m.substitutions

/-- The four per-game accumulators of `submitScores`. -/
structure TeamTotals where
  homeTeamScore : Int
  awayTeamScore : Int
  homeTeamStrikes : Int
  awayTeamStrikes : Int
deriving Repr, DecidableEq

/-- The scoring loop of `submitScores`: each submitted bowler's total and
strike count are added to the home accumulators if the bowler id is in the
extended home set, else to the away accumulators if in the extended away
set, else to neither. -/
def teamTotals (homeIds awayIds : List String) (bowlers : List BowlerFrames) : TeamTotals :=
  bowlers.foldl
    (fun t b =>
      let bowlerTotal := calculateBowlerTotal b.frames
      let bowlerStrikes := countStrikes b.frames
      if b.bowlerId ∈ homeIds then
        { t with
          homeTeamScore := t.homeTeamScore + bowlerTotal
          homeTeamStrikes := t.homeTeamStrikes + bowlerStrikes }
      else if b.bowlerId ∈ awayIds then
        { t with
          awayTeamScore := t.awayTeamScore + bowlerTotal
          awayTeamStrikes := t.awayTeamStrikes + bowlerStrikes }
      else t)
    ⟨0, 0, 0, 0⟩

/-- The per-game point award of `submitScores`: the strictly higher score
gets `10 + ownStrikes` and the other side its own strike count; an exact
tie gives `5 + ownStrikes` to each.  Returns `(homeTeamPoints,
awayTeamPoints)`. -/
def gamePoints (t : TeamTotals) : Int × Int :=
  if t.homeTeamScore > t.awayTeamScore then
    (10 + t.homeTeamStrikes, t.awayTeamStrikes)
  else if t.awayTeamScore > t.homeTeamScore then
    (t.homeTeamStrikes, 10 + t.awayTeamStrikes)
  else
    (5 + t.homeTeamStrikes, 5 + t.awayTeamStrikes)

/-- A `Game` row as first created by the `game.upsert` of `submitScores`:
no frames, all computed fields null. -/
def emptyGame (gameNumber : Nat) : Game :=
  { gameNumber := gameNumber
    frames := []
    homeTeamScore := none
    awayTeamScore := none
    homeTeamStrikes := none
    awayTeamStrikes := none
    homeTeamPoints := none
    awayTeamPoints := none }

/-- The `game.upsert` of `submitScores`: the row for this `gameNumber` is
created if absent and left untouched if present (`update: {}`). -/
def upsertGame (games : List Game) (gameNumber : Nat) : List Game :=
  if games.any (fun g => g.gameNumber == gameNumber) then games
  else games ++ [emptyGame gameNumber]

/-- Does a persisted frame entry have the given `(bowlerId, frameNumber)`
key (the unique constraint of the `Frame` table within one game)? -/
def frameKeyIs (bowlerId : String) (frameNumber : Nat) (p : String × Frame) : Bool :=
  p.1 == bowlerId && p.2.frameNumber == frameNumber

/-- One `frame.upsert` of `submitScores`: overwrite the entry with this
`(bowlerId, frameNumber)` key if present, append a new entry otherwise. -/
def upsertFrame (fs : List (String × Frame)) (bowlerId : String) (f : Frame) :
    List (String × Frame) :=
  if fs.any (frameKeyIs bowlerId f.frameNumber) then
    fs.map (fun p => if frameKeyIs bowlerId f.frameNumber p then (bowlerId, f) else p)
  else fs ++ [(bowlerId, f)]

/-- The frame-upsert transaction of `submitScores`: every frame of every
submitted bowler is upserted into the game's persisted frames. -/
def applyFrameUpserts (fs : List (String × Frame)) (bowlers : List BowlerFrames) :
    List (String × Frame) :=
  bowlers.foldl
    (fun acc b => b.frames.foldl (fun acc2 f => upsertFrame acc2 b.bowlerId f) acc)
    fs

/-- The effect of the frame-upsert transaction on one `Game` row: only the
row whose `gameNumber` matches the submission is touched. -/
def gameWithFrames (dto : SubmitScoresDto) (g : Game) : Game :=
  if g.gameNumber == dto.gameNumber then
    { g with frames := applyFrameUpserts g.frames dto.bowlers }
  else g

/-- The `game.update` of `submitScores`, writing the computed scores,
strikes and points onto the submitted game's row. -/
def gameWithResults (dto : SubmitScoresDto) (t : TeamTotals) (p : Int × Int) (g : Game) :
    Game :=
  if g.gameNumber == dto.gameNumber then
    { g with
      homeTeamScore := some t.homeTeamScore
      awayTeamScore := some t.awayTeamScore
      homeTeamStrikes := some t.homeTeamStrikes
      awayTeamStrikes := some t.awayTeamStrikes
      homeTeamPoints := some p.1
      awayTeamPoints := some p.2 }
  else g

/-- `allGames.reduce((sum, g) => sum + (g.homeTeamPoints ?? 0), 0)`. -/
def sumHomePoints (games : List Game) : Int :=
  games.foldl (fun sum g => sum + g.homeTeamPoints.getD 0) 0

/-- `allGames.reduce((sum, g) => sum + (g.awayTeamPoints ?? 0), 0)`. -/
def sumAwayPoints (games : List Game) : Int :=
  games.foldl (fun sum g => sum + g.awayTeamPoints.getD 0) 0

/-- `MatchesService.submitScores` after the match has been loaded: upsert
the game row, upsert the submitted frames, compute team scores and strike
counts from the submission, award the per-game points, write them on the
game, then recompute the match-level aggregates by summing over **all**
games of the match and determine the winning team. -/
def submitScores (m : Match) (dto : SubmitScoresDto) : Match :=
  let sets := matchTeamSets m
  let totals := teamTotals sets.1 sets.2 dto.bowlers
  let points := gamePoints totals
  let allGames :=
    ((upsertGame m.games dto.gameNumber).map (gameWithFrames dto)).map
      (gameWithResults dto totals points)
  let totalHomePoints := sumHomePoints allGames
  let totalAwayPoints := sumAwayPoints allGames
  let winningTeamId :=
    if totalHomePoints > totalAwayPoints then some m.homeTeamId
    else if totalAwayPoints > totalHomePoints then some m.awayTeamId
    else none
  { m with
    games := allGames
    homeTeamPoints := some totalHomePoints
    awayTeamPoints := some totalAwayPoints
    winningTeamId := winningTeamId }

/-- Look up the (unique) game row with a given `gameNumber`. -/
def findGame (games : List Game) (gameNumber : Nat) : Option Game :=
  games.find? (fun g => g.gameNumber == gameNumber)

/-- `MatchesService.deleteSubstitution` after the match lookup: fails
(NotFound) unless a substitution with this id belongs to the match,
otherwise removes exactly that substitution record and nothing else. -/
def deleteSubstitution (m : Match) (substitutionId : String) : Option Match :=
  match m.substitutions.find? (fun s => s.id == substitutionId) with
  | none => none
  | some _ =>
    some { m with substitutions := m.substitutions.eraseP (fun s => s.id == substitutionId) }

/-! ## Schedule Generator (`SeasonsService.buildRoundRobin`) -/

/-- The synthetic bye placeholder pushed when the team count is odd. -/
def byeMarker : String := "BYE"

/-- One generated pairing (`{ homeTeamId, awayTeamId, week }`). -/
structure RRMatch where
  homeTeamId : String
  awayTeamId : String
  week : Nat
deriving Repr, DecidableEq

/-- `rotating.unshift(rotating.pop()!)`: move the last element to the
front. -/
def rotateRight1 (l : List String) : List String :=
  match l.getLast? with
  | none => l
  | some x => x :: l.dropLast

/-- The inner loop of one round: with `current = [teams[0], ...rotating]`,
pair `current[i]` against `current[n - 1 - i]` for `i < n / 2`, dropping
pairings that involve the bye placeholder. -/
def roundPairings (first : String) (n : Nat) (rotating : List String) (week : Nat) :
    List RRMatch :=
  (List.range (n / 2)).filterMap (fun i =>
    let current := first :: rotating
    let home := current.getD i ""
    let away := current.getD (n - 1 - i) ""
    if home ≠ byeMarker ∧ away ≠ byeMarker then some ⟨home, away, week⟩ else none)

/-- Bye padding: append `"BYE"` when the team count is odd. -/
def paddedTeams (teamIds : List String) : List String :=
  if teamIds.length % 2 ≠ 0 then teamIds ++ [byeMarker] else teamIds

/-- `SeasonsService.buildRoundRobin`: classic circle method — fix the first
team, rotate the rest right by one after each of the `n - 1` rounds,
emitting the non-bye pairings of each round with `week = round + 1`. -/
def buildRoundRobin (teamIds : List String) : List RRMatch :=
  let teams := paddedTeams teamIds
  let n := teams.length
  ((List.range (n - 1)).foldl
    (fun acc round =>
      (acc.1 ++ roundPairings (teams.headD "") n acc.2 (round + 1), rotateRight1 acc.2))
    (([] : List RRMatch), teams.drop 1)).1

/-- Does a pairing match the unordered pair `{x, y}`? -/
def pairIs (x y : String) (p : RRMatch) : Bool :=
  (p.homeTeamId == x && p.awayTeamId == y) || (p.homeTeamId == y && p.awayTeamId == x)

/-- The canonical representative of `±t` among `1 .. (m-1)/2` (for odd `m`
and `t ≠ 0`). -/
def halfRep (m : Nat) (t : ZMod m) : Nat :=
  if t.val ≤ (m - 1) / 2 then t.val else m - t.val

/-- The pairing built at inner index `i` of a round (before bye
filtering). -/
def pairAt (first : String) (rot : List String) (n i week : Nat) : RRMatch :=
  ⟨(first :: rot).getD i "", (first :: rot).getD (n - 1 - i) "", week⟩

/-- The full schedule as a flat list of rounds, with the rotating list of
round `r` written explicitly as the `r`-fold rotation of the initial one. -/
def rrRaw (first : String) (rot0 : List String) : List RRMatch :=
  (List.range rot0.length).flatMap
    (fun r => roundPairings first (rot0.length + 1) (rotateRight1^[r] rot0) (r + 1))

/-- The element of the rotating list at a `ZMod`-valued position. -/
def rotElem (m : Nat) (rot : List String) (z : ZMod m) : String :=
  rot.getD z.val ""

/-! ## Statistics attribution (`SeasonsService.getStats`) -/

/-- One `Map.set` step of the `bowlerToTeam` map built per match in
`getStats`. -/
def mapSet (f : String → Option String) (k v : String) : String → Option String :=
  fun x => if x = k then some v else f x

/-- Registering one roster in the `bowlerToTeam` map: every bowler id of
the list is mapped to the given team id. -/
def rosterFold (teamId : String) (bowlers : List String) (f : String → Option String) :
    String → Option String :=
  bowlers.foldl (fun f b => mapSet f b teamId) f

/-- One step of the substitution loop of the `bowlerToTeam` map: the
substitution's `substituteBowlerId` is mapped to the team its
`originalBowlerId` is currently mapped to (when it is mapped at all). -/
def subsStep (f : String → Option String) (sub : Substitution) : String → Option String :=
  match f sub.originalBowlerId with
  | some teamId => mapSet f sub.substituteBowlerId teamId
  | none => f

/-- The substitution loop of the `bowlerToTeam` map. -/
def subsFold (subs : List Substitution) (f : String → Option String) :
    String → Option String :=
  subs.foldl subsStep f

/-- The substitution-aware `bowlerId → teamId` map of `getStats`: home
roster first, then away roster, then the substitutions. -/
def bowlerToTeam (m : Match) : String → Option String :=
  subsFold m.substitutions
    (rosterFold m.awayTeamId m.awayBowlers
      (rosterFold m.homeTeamId m.homeBowlers (fun _ => none)))

/-! ## Concrete example data -/

/-- A two-team match with one bowler per side and no games yet. -/
def exMatch : Match :=
  { homeTeamId := "H"
    awayTeamId := "A"
    homeBowlers := ["hb"]
    awayBowlers := ["ab"]
    substitutions := []
    games := []
    homeTeamPoints := none
    awayTeamPoints := none
    winningTeamId := none }

/-- A submission in which the home bowler strikes twice (total 30) and the
away bowler strikes once (total 10): home wins with 2 strikes to 1. -/
def exDtoHomeWin : SubmitScoresDto :=
  ⟨1,
    [⟨"hb", [⟨1, 10, none, none, false⟩, ⟨2, 10, none, none, false⟩]⟩,
      ⟨"ab", [⟨1, 10, none, none, false⟩]⟩]⟩

/-- A submission in which both bowlers roll an open 3–4 frame: an exact
7–7 tie with no strikes. -/
def exDtoTie : SubmitScoresDto :=
  ⟨1,
    [⟨"hb", [⟨1, 3, some 4, none, false⟩]⟩,
      ⟨"ab", [⟨1, 3, some 4, none, false⟩]⟩]⟩

/-- The four computed score/strike fields of a game row, as a tuple. -/
def gameScoreFields (g : Game) : Option Int × Option Int × Option Int × Option Int :=
  (g.homeTeamScore, g.awayTeamScore, g.homeTeamStrikes, g.awayTeamStrikes)

/-- A game row persisted before any current submission: game 1 of a match
with one old frame for the home bowler and no computed fields. -/
def exStoredGame : Game :=
  { gameNumber := 1
    frames := [("hb", ⟨1, 5, some 3, none, false⟩)]
    homeTeamScore := none
    awayTeamScore := none
    homeTeamStrikes := none
    awayTeamStrikes := none
    homeTeamPoints := none
    awayTeamPoints := none }

/-- `exMatch` with `exStoredGame` already persisted. -/
def exMatchWithGame : Match :=
  { exMatch with games := [exStoredGame] }

/-- A submission for game 1 naming only the away bowler. -/
def exDtoAwayOnly : SubmitScoresDto :=
  ⟨1, [⟨"ab", [⟨1, 2, some 3, none, false⟩]⟩]⟩

/-- A substitution replacing the home bowler `hb` with the non-roster
bowler `sb`. -/
def exSub : Substitution :=
  ⟨"s1", "hb", "sb", "H"⟩

/-- `exMatch` with the substitution `exSub` active. -/
def exMatchWithSub : Match :=
  { exMatch with substitutions := [exSub] }

/-- `exMatchWithSub` after deleting its only substitution. -/
def exMatchSubDeleted : Match :=
  { exMatchWithSub with substitutions := [] }

/-! ## Theorems -/

theorem orderedInsert_append_frame (a f : Frame) (l l2 : List Frame)
    (haf : a.frameNumber ≤ f.frameNumber) :
    List.orderedInsert (fun x y => x.frameNumber ≤ y.frameNumber) a (l ++ f :: l2) =
      List.orderedInsert (fun x y => x.frameNumber ≤ y.frameNumber) a l ++ f :: l2 := by
  induction l with
  | nil => simp [List.orderedInsert, haf]
  | cons b t ih =>
    simp only [List.cons_append, List.orderedInsert]
    by_cases h : a.frameNumber ≤ b.frameNumber
    · simp [h]
    · simp [h, ih]

theorem sortFrames_append_last (fs : List Frame) (f : Frame)
    (hle : ∀ g ∈ fs, g.frameNumber ≤ f.frameNumber) :
    sortFrames (fs ++ [f]) = sortFrames fs ++ [f] := by
  induction fs with
  | nil => simp [sortFrames, List.insertionSort]
  | cons a t ih =>
    have ha : a.frameNumber ≤ f.frameNumber := hle a (by simp)
    have ht : ∀ g ∈ t, g.frameNumber ≤ f.frameNumber := fun g hg => hle g (by simp [hg])
    simp only [sortFrames, List.cons_append, List.insertionSort, List.append_eq] at *
    rw [ih ht]
    exact orderedInsert_append_frame a f _ [] ha

theorem calcFrames_pad (f : Frame) (hf10 : f.frameNumber ≠ 10)
    (hss : f.ball1Score = 10 ∨ f.ball1Score + f.ball2Score.getD 0 = 10) :
    ∀ l : List Frame,
      calcFrames (l ++ [f]) = calcFrames (l ++ [f, zeroFrame (f.frameNumber + 1)]) := by
  intro l
  induction l with
  | nil =>
    have hz : calcFrames [zeroFrame (f.frameNumber + 1)] = 0 := by
      by_cases h10 : f.frameNumber + 1 = 10 <;> simp [calcFrames, zeroFrame, h10]
    rcases hss with hstrike | hspare
    · simp [calcFrames, hf10, hstrike, hz, zeroFrame]
    · by_cases hb1 : f.ball1Score = 10
      · simp [calcFrames, hf10, hb1, hz, zeroFrame]
      · simp [calcFrames, hf10, hb1, hspare, hz, zeroFrame]
  | cons a t ih =>
    simp only [List.cons_append, calcFrames, List.append_eq]
    rw [ih]
    cases t with
    | nil =>
      by_cases hb1 : f.ball1Score = 10 <;>
        simp [zeroFrame, hb1, Nat.lt_irrefl]
    | cons b t2 => cases t2 <;> simp

/-- C4 as stated is false on the code: the bonus for a strike (or spare) in
frames 1–9 is taken from the next frame present in the sorted input even
when that frame's `frameNumber` is not the successor.  For a lone strike in
frame 1 with the only other submitted frame being frame 3 (an open `3, 4`),
frame 1 contributes `10 + 3 + 4 = 17` and the total is 24, not the
`10 + 7 = 17` the claim requires. -/
theorem C4_counterexample_gap_bonus :
    calculateBowlerTotal gapFrames = 24 ∧ calculateBowlerTotal gapFrames ≠ 10 + 7 := by
  decide

/-- C4 amended: for every partial frame set, when a frame in 1–9 is a strike
or a spare and **no frame with a larger `frameNumber` is present at all**
(the frame is last in sorted order), the missing bonus ball or balls are
treated as 0: appending an explicit all-zero next frame does not change the
total, and in particular a trailing lone strike or spare contributes
exactly 10.  (When a later frame is present, the bonus is drawn from it
even across a `frameNumber` gap — see the counterexample.) -/
theorem C4_missing_bonus_balls_as_zero :
    (∀ (fs : List Frame) (f : Frame),
      (∀ g ∈ fs, g.frameNumber ≤ f.frameNumber) →
      f.frameNumber ≠ 10 →
      (f.ball1Score = 10 ∨ f.ball1Score + f.ball2Score.getD 0 = 10) →
      calculateBowlerTotal (fs ++ [f]) =
        calculateBowlerTotal (fs ++ [f, zeroFrame (f.frameNumber + 1)])) ∧
    (∀ f : Frame, f.frameNumber ≠ 10 →
      (f.ball1Score = 10 ∨ f.ball1Score + f.ball2Score.getD 0 = 10) →
      calculateBowlerTotal [f] = 10) := by
  constructor
  · intro fs f hle hf10 hss
    have h1 : sortFrames (fs ++ [f]) = sortFrames fs ++ [f] :=
      sortFrames_append_last fs f hle
    have hle2 : ∀ g ∈ fs ++ [f], g.frameNumber ≤ (zeroFrame (f.frameNumber + 1)).frameNumber := by
      intro g hg
      rcases List.mem_append.mp hg with h | h
      · exact Nat.le_trans (hle g h) (by simp [zeroFrame])
      · simp only [List.mem_singleton] at h
        simp [h, zeroFrame]
    have h2 : sortFrames (fs ++ [f, zeroFrame (f.frameNumber + 1)]) =
        sortFrames (fs ++ [f]) ++ [zeroFrame (f.frameNumber + 1)] := by
      have := sortFrames_append_last (fs ++ [f]) (zeroFrame (f.frameNumber + 1)) hle2
      simpa using this
    rw [calculateBowlerTotal, calculateBowlerTotal, h1, h2, h1, List.append_assoc]
    exact calcFrames_pad f hf10 hss (sortFrames fs)
  · intro f hf10 hss
    rcases hss with hstrike | hspare
    · simp [calculateBowlerTotal, sortFrames, List.insertionSort, calcFrames, hf10, hstrike]
    · by_cases hb1 : f.ball1Score = 10
      · simp [calculateBowlerTotal, sortFrames, List.insertionSort, calcFrames, hf10, hb1]
      · simp [calculateBowlerTotal, sortFrames, List.insertionSort, calcFrames, hf10, hb1, hspare]

/-- Witness for C4's amended theorem at a concrete input: a lone strike in
frame 1, with and without an explicit zero frame 2 appended. -/
theorem C4_missing_bonus_witness :
    calculateBowlerTotal ([] ++ [(⟨1, 10, none, none, false⟩ : Frame)]) =
      calculateBowlerTotal ([] ++ [⟨1, 10, none, none, false⟩, zeroFrame 2]) ∧
    calculateBowlerTotal [(⟨1, 10, none, none, false⟩ : Frame)] = 10 :=
  ⟨C4_missing_bonus_balls_as_zero.1 [] ⟨1, 10, none, none, false⟩ (by simp)
      (by decide) (Or.inl rfl),
    C4_missing_bonus_balls_as_zero.2 ⟨1, 10, none, none, false⟩ (by decide) (Or.inl rfl)⟩

/-- C1: for ten frames in which every ball is 10 (frames 1–9 each a single
strike, frame 10 with ball1 = ball2 = ball3 = 10), `calculateBowlerTotal`
returns exactly 300. -/
theorem C1_perfect_game_scores_300 : calculateBowlerTotal perfectGameFrames = 300 := by
  decide

/-! ### Settlement support lemmas -/

theorem gameWithFrames_gameNumber (dto : SubmitScoresDto) (g : Game) :
    (gameWithFrames dto g).gameNumber = g.gameNumber := by
  unfold gameWithFrames
  split <;> rfl

theorem gameWithResults_gameNumber (dto : SubmitScoresDto) (t : TeamTotals) (p : Int × Int)
    (g : Game) : (gameWithResults dto t p g).gameNumber = g.gameNumber := by
  unfold gameWithResults
  split <;> rfl

theorem findGame_map (f : Game → Game) (hf : ∀ g, (f g).gameNumber = g.gameNumber)
    (l : List Game) (gn : Nat) : findGame (l.map f) gn = (findGame l gn).map f := by
  induction l with
  | nil => rfl
  | cons a t ih =>
    simp only [findGame, List.map_cons, List.find?_cons] at *
    rw [hf a]
    by_cases h : a.gameNumber == gn
    · simp [h]
    · simp [h, ih]

theorem upsertGame_exists (games : List Game) (gn : Nat) :
    ∃ g ∈ upsertGame games gn, g.gameNumber = gn := by
  unfold upsertGame
  by_cases h : games.any (fun g => g.gameNumber == gn)
  · simp only [h, if_true]
    obtain ⟨g, hg, hbeq⟩ := List.any_eq_true.mp h
    exact ⟨g, hg, by simpa using hbeq⟩
  · simp only [h, if_false]
    exact ⟨emptyGame gn, by simp, rfl⟩

theorem upsertGame_of_exists {games : List Game} {gn : Nat}
    (h : ∃ g ∈ games, g.gameNumber = gn) : upsertGame games gn = games := by
  unfold upsertGame
  rw [if_pos]
  obtain ⟨g, hg, hgn⟩ := h
  exact List.any_eq_true.mpr ⟨g, hg, by simpa using hgn⟩

theorem findGame_eq_some_of_exists {games : List Game} {gn : Nat}
    (h : ∃ g ∈ games, g.gameNumber = gn) :
    ∃ g, findGame games gn = some g ∧ g.gameNumber = gn := by
  obtain ⟨g, hg, hgn⟩ := h
  have hsome : (games.find? (fun g => g.gameNumber == gn)).isSome := by
    rw [List.find?_isSome]
    exact ⟨g, hg, by simpa using hgn⟩
  obtain ⟨g', hg'⟩ := Option.isSome_iff_exists.mp hsome
  exact ⟨g', hg', by simpa using List.find?_some hg'⟩

theorem submitScores_games_eq (m : Match) (dto : SubmitScoresDto) :
    (submitScores m dto).games =
      ((upsertGame m.games dto.gameNumber).map (gameWithFrames dto)).map
        (gameWithResults dto
          (teamTotals (matchTeamSets m).1 (matchTeamSets m).2 dto.bowlers)
          (gamePoints (teamTotals (matchTeamSets m).1 (matchTeamSets m).2 dto.bowlers))) := rfl

theorem submitScores_findGame (m : Match) (dto : SubmitScoresDto) :
    ∃ g₀, findGame (upsertGame m.games dto.gameNumber) dto.gameNumber = some g₀ ∧
      g₀.gameNumber = dto.gameNumber ∧
      findGame (submitScores m dto).games dto.gameNumber =
        some (gameWithResults dto
          (teamTotals (matchTeamSets m).1 (matchTeamSets m).2 dto.bowlers)
          (gamePoints (teamTotals (matchTeamSets m).1 (matchTeamSets m).2 dto.bowlers))
          (gameWithFrames dto g₀)) := by
  obtain ⟨g₀, hfind, hgn⟩ :=
    findGame_eq_some_of_exists (upsertGame_exists m.games dto.gameNumber)
  refine ⟨g₀, hfind, hgn, ?_⟩
  rw [submitScores_games_eq, findGame_map _ (gameWithResults_gameNumber dto _ _),
    findGame_map _ (gameWithFrames_gameNumber dto), hfind]
  rfl

theorem submitScores_game_fields (m : Match) (dto : SubmitScoresDto) (g : Game)
    (hfind : findGame (submitScores m dto).games dto.gameNumber = some g) :
    g.gameNumber = dto.gameNumber ∧
    g.homeTeamScore =
      some (teamTotals (matchTeamSets m).1 (matchTeamSets m).2 dto.bowlers).homeTeamScore ∧
    g.awayTeamScore =
      some (teamTotals (matchTeamSets m).1 (matchTeamSets m).2 dto.bowlers).awayTeamScore ∧
    g.homeTeamStrikes =
      some (teamTotals (matchTeamSets m).1 (matchTeamSets m).2 dto.bowlers).homeTeamStrikes ∧
    g.awayTeamStrikes =
      some (teamTotals (matchTeamSets m).1 (matchTeamSets m).2 dto.bowlers).awayTeamStrikes ∧
    g.homeTeamPoints =
      some (gamePoints (teamTotals (matchTeamSets m).1 (matchTeamSets m).2 dto.bowlers)).1 ∧
    g.awayTeamPoints =
      some (gamePoints (teamTotals (matchTeamSets m).1 (matchTeamSets m).2 dto.bowlers)).2 := by
  obtain ⟨g₀, _, hgn, hfind2⟩ := submitScores_findGame m dto
  rw [hfind] at hfind2
  have hg : g = gameWithResults dto
      (teamTotals (matchTeamSets m).1 (matchTeamSets m).2 dto.bowlers)
      (gamePoints (teamTotals (matchTeamSets m).1 (matchTeamSets m).2 dto.bowlers))
      (gameWithFrames dto g₀) := by
    injection hfind2
  have hcond : ((gameWithFrames dto g₀).gameNumber == dto.gameNumber) = true := by
    simp [gameWithFrames_gameNumber, hgn]
  subst hg
  unfold gameWithResults
  simp [hcond, gameWithFrames_gameNumber, hgn]

theorem submitScores_winningTeamId (m : Match) (dto : SubmitScoresDto) :
    (submitScores m dto).winningTeamId =
      (if sumHomePoints (submitScores m dto).games > sumAwayPoints (submitScores m dto).games
        then some m.homeTeamId
        else if sumAwayPoints (submitScores m dto).games >
            sumHomePoints (submitScores m dto).games
          then some m.awayTeamId
          else none) := rfl

/-- C3: after every `submitScores` call the match's `homeTeamPoints` and
`awayTeamPoints` equal the sums of the corresponding per-game points over
all games of the match (null points counted as 0), and `winningTeamId` is
the team with the strictly higher sum, or null when the sums are equal. -/
theorem C3_match_aggregates_recomputed (m : Match) (dto : SubmitScoresDto) :
    (submitScores m dto).homeTeamPoints =
      some (sumHomePoints (submitScores m dto).games) ∧
    (submitScores m dto).awayTeamPoints =
      some (sumAwayPoints (submitScores m dto).games) ∧
    (sumHomePoints (submitScores m dto).games > sumAwayPoints (submitScores m dto).games →
      (submitScores m dto).winningTeamId = some m.homeTeamId) ∧
    (sumAwayPoints (submitScores m dto).games > sumHomePoints (submitScores m dto).games →
      (submitScores m dto).winningTeamId = some m.awayTeamId) ∧
    (sumHomePoints (submitScores m dto).games = sumAwayPoints (submitScores m dto).games →
      (submitScores m dto).winningTeamId = none) := by
  refine ⟨rfl, rfl, ?_, ?_, ?_⟩
  · intro h
    rw [submitScores_winningTeamId, if_pos h]
  · intro h
    rw [submitScores_winningTeamId, if_neg (by exact lt_asymm h), if_pos h]
  · intro h
    rw [submitScores_winningTeamId, if_neg (by rw [h]; exact lt_irrefl _),
      if_neg (by rw [h]; exact lt_irrefl _)]

/-- Witness for C3 at a concrete input: one tied game gives 5–5 aggregate
points and no winning team. -/
theorem C3_match_aggregates_witness :
    (submitScores exMatch exDtoTie).homeTeamPoints =
      some (sumHomePoints (submitScores exMatch exDtoTie).games) ∧
    (submitScores exMatch exDtoTie).winningTeamId = none :=
  ⟨(C3_match_aggregates_recomputed exMatch exDtoTie).1,
    (C3_match_aggregates_recomputed exMatch exDtoTie).2.2.2.2 (by decide)⟩

/-- C2: the per-game point award written by `submitScores`.  On the game row
stored for the submitted `gameNumber`: a strictly higher team score gives
that team `10 + ownStrikes` points and the other team its own strike count;
an exact tie gives each team `5 + ownStrikes`.  In particular the concrete
home-win with 2 home strikes and 1 away strike yields points 12 and 1, and
a 0-strike exact tie yields 5 and 5. -/
theorem C2_game_point_award :
    (∀ (m : Match) (dto : SubmitScoresDto) (g : Game),
      findGame (submitScores m dto).games dto.gameNumber = some g →
      ((g.homeTeamScore.getD 0 > g.awayTeamScore.getD 0 →
          g.homeTeamPoints = some (10 + g.homeTeamStrikes.getD 0) ∧
          g.awayTeamPoints = some (g.awayTeamStrikes.getD 0)) ∧
        (g.awayTeamScore.getD 0 > g.homeTeamScore.getD 0 →
          g.homeTeamPoints = some (g.homeTeamStrikes.getD 0) ∧
          g.awayTeamPoints = some (10 + g.awayTeamStrikes.getD 0)) ∧
        (g.homeTeamScore.getD 0 = g.awayTeamScore.getD 0 →
          g.homeTeamPoints = some (5 + g.homeTeamStrikes.getD 0) ∧
          g.awayTeamPoints = some (5 + g.awayTeamStrikes.getD 0)))) ∧
    (findGame (submitScores exMatch exDtoHomeWin).games exDtoHomeWin.gameNumber).map
        (fun g => (g.homeTeamPoints, g.awayTeamPoints)) = some (some 12, some 1) ∧
    (findGame (submitScores exMatch exDtoTie).games exDtoTie.gameNumber).map
        (fun g => (g.homeTeamPoints, g.awayTeamPoints)) = some (some 5, some 5) := by
  refine ⟨?_, by decide, by decide⟩
  intro m dto g hfind
  obtain ⟨hgn, hhs, has, hhk, hak, hhp, hap⟩ := submitScores_game_fields m dto g hfind
  rw [hhs, has, hhk, hak, hhp, hap]
  simp only [Option.getD_some]
  unfold gamePoints
  set t := teamTotals (matchTeamSets m).1 (matchTeamSets m).2 dto.bowlers with ht
  refine ⟨?_, ?_, ?_⟩
  · intro h
    rw [if_pos h]
    exact ⟨rfl, rfl⟩
  · intro h
    rw [if_neg (by exact lt_asymm h), if_pos h]
    exact ⟨rfl, rfl⟩
  · intro h
    rw [if_neg (by rw [h]; exact lt_irrefl _), if_neg (by rw [h]; exact lt_irrefl _)]
    exact ⟨rfl, rfl⟩

/-- Witness for C2's universally quantified part at a concrete input: the
home-win submission gives the home team `10 + 2` points and the away team
its 1 strike. -/
theorem C2_game_point_award_witness :
    ∃ g, findGame (submitScores exMatch exDtoHomeWin).games exDtoHomeWin.gameNumber = some g ∧
      g.homeTeamPoints = some (10 + g.homeTeamStrikes.getD 0) ∧
      g.awayTeamPoints = some (g.awayTeamStrikes.getD 0) := by
  have hfind : findGame (submitScores exMatch exDtoHomeWin).games exDtoHomeWin.gameNumber =
      some ⟨1,
        [("hb", ⟨1, 10, none, none, false⟩), ("hb", ⟨2, 10, none, none, false⟩),
          ("ab", ⟨1, 10, none, none, false⟩)],
        some 30, some 10, some 2, some 1, some 12, some 1⟩ := by
    decide
  exact ⟨_, hfind,
    (C2_game_point_award.1 exMatch exDtoHomeWin _ hfind).1 (by decide)⟩

/-! ### Idempotence support -/

theorem matchTeamSets_submitScores (m : Match) (dto : SubmitScoresDto) :
    matchTeamSets (submitScores m dto) = matchTeamSets m := rfl

theorem submitScores_game_points_of_mem (m : Match) (dto : SubmitScoresDto) (g : Game)
    (hmem : g ∈ (submitScores m dto).games) (hgn : g.gameNumber = dto.gameNumber) :
    g.homeTeamPoints =
      some (gamePoints (teamTotals (matchTeamSets m).1 (matchTeamSets m).2 dto.bowlers)).1 ∧
    g.awayTeamPoints =
      some (gamePoints (teamTotals (matchTeamSets m).1 (matchTeamSets m).2 dto.bowlers)).2 := by
  rw [submitScores_games_eq] at hmem
  obtain ⟨g1, hg1, rfl⟩ := List.mem_map.mp hmem
  have hg1n : g1.gameNumber = dto.gameNumber := by
    rw [← gameWithResults_gameNumber dto
      (teamTotals (matchTeamSets m).1 (matchTeamSets m).2 dto.bowlers)
      (gamePoints (teamTotals (matchTeamSets m).1 (matchTeamSets m).2 dto.bowlers)) g1]
    exact hgn
  unfold gameWithResults
  simp [hg1n]

theorem foldl_getD_congr (f : Game → Option Int) :
    ∀ (l1 l2 : List Game), l1.map f = l2.map f →
      ∀ c : Int,
        l1.foldl (fun sum g => sum + (f g).getD 0) c =
          l2.foldl (fun sum g => sum + (f g).getD 0) c := by
  intro l1
  induction l1 with
  | nil =>
    intro l2 h c
    cases l2 with
    | nil => rfl
    | cons b t2 => simp at h
  | cons a t ih =>
    intro l2 h c
    cases l2 with
    | nil => simp at h
    | cons b t2 =>
      simp only [List.map_cons, List.cons.injEq] at h
      simp only [List.foldl_cons]
      rw [h.1]
      exact ih t2 h.2 _

/-- C7: `submitScores` is idempotent for the match aggregates — submitting
the identical game submission twice in succession leaves the match's
`homeTeamPoints`, `awayTeamPoints` and `winningTeamId` exactly as after the
first call. -/
theorem C7_submitScores_idempotent (m : Match) (dto : SubmitScoresDto) :
    (submitScores (submitScores m dto) dto).homeTeamPoints =
      (submitScores m dto).homeTeamPoints ∧
    (submitScores (submitScores m dto) dto).awayTeamPoints =
      (submitScores m dto).awayTeamPoints ∧
    (submitScores (submitScores m dto) dto).winningTeamId =
      (submitScores m dto).winningTeamId := by
  obtain ⟨g0, hfind0, hg0n, hfind⟩ := submitScores_findGame m dto
  have hex : ∃ g ∈ (submitScores m dto).games, g.gameNumber = dto.gameNumber := by
    refine ⟨_, List.mem_of_find?_eq_some hfind, ?_⟩
    simpa using List.find?_some hfind
  have hgames2 : (submitScores (submitScores m dto) dto).games =
      (submitScores m dto).games.map
        ((gameWithResults dto
            (teamTotals (matchTeamSets m).1 (matchTeamSets m).2 dto.bowlers)
            (gamePoints (teamTotals (matchTeamSets m).1 (matchTeamSets m).2 dto.bowlers))) ∘
          (gameWithFrames dto)) := by
    rw [submitScores_games_eq (submitScores m dto) dto, matchTeamSets_submitScores,
      upsertGame_of_exists hex, List.map_map]
  have hproj : ∀ g ∈ (submitScores m dto).games,
      ((gameWithResults dto
          (teamTotals (matchTeamSets m).1 (matchTeamSets m).2 dto.bowlers)
          (gamePoints (teamTotals (matchTeamSets m).1 (matchTeamSets m).2 dto.bowlers)))
        (gameWithFrames dto g)).homeTeamPoints = g.homeTeamPoints ∧
      ((gameWithResults dto
          (teamTotals (matchTeamSets m).1 (matchTeamSets m).2 dto.bowlers)
          (gamePoints (teamTotals (matchTeamSets m).1 (matchTeamSets m).2 dto.bowlers)))
        (gameWithFrames dto g)).awayTeamPoints = g.awayTeamPoints := by
    intro g hg
    by_cases hgn : g.gameNumber = dto.gameNumber
    · obtain ⟨hp1, hp2⟩ := submitScores_game_points_of_mem m dto g hg hgn
      have hcond : ((gameWithFrames dto g).gameNumber == dto.gameNumber) = true := by
        simp [gameWithFrames_gameNumber, hgn]
      constructor <;> simp [gameWithResults, hcond, hp1, hp2]
    · have hcond : (g.gameNumber == dto.gameNumber) = false := by simp [hgn]
      constructor <;> simp [gameWithResults, gameWithFrames, hcond]
  have hmapH : (submitScores (submitScores m dto) dto).games.map (fun g => g.homeTeamPoints) =
      (submitScores m dto).games.map (fun g => g.homeTeamPoints) := by
    rw [hgames2, List.map_map]
    exact List.map_congr_left (fun g hg => (hproj g hg).1)
  have hmapA : (submitScores (submitScores m dto) dto).games.map (fun g => g.awayTeamPoints) =
      (submitScores m dto).games.map (fun g => g.awayTeamPoints) := by
    rw [hgames2, List.map_map]
    exact List.map_congr_left (fun g hg => (hproj g hg).2)
  have hH : sumHomePoints (submitScores (submitScores m dto) dto).games =
      sumHomePoints (submitScores m dto).games :=
    foldl_getD_congr (fun g => g.homeTeamPoints) _ _ hmapH 0
  have hA : sumAwayPoints (submitScores (submitScores m dto) dto).games =
      sumAwayPoints (submitScores m dto).games :=
    foldl_getD_congr (fun g => g.awayTeamPoints) _ _ hmapA 0
  refine ⟨?_, ?_, ?_⟩
  · exact congrArg some hH
  · exact congrArg some hA
  · rw [submitScores_winningTeamId (submitScores m dto) dto,
      submitScores_winningTeamId m dto, hH, hA]
    rfl

/-! ### Dropped-bowler support -/

theorem teamTotals_skip (homeIds awayIds : List String) (bs1 bs2 : List BowlerFrames)
    (b : BowlerFrames) (hh : b.bowlerId ∉ homeIds) (ha : b.bowlerId ∉ awayIds) :
    teamTotals homeIds awayIds (bs1 ++ b :: bs2) = teamTotals homeIds awayIds (bs1 ++ bs2) := by
  unfold teamTotals
  rw [List.foldl_append, List.foldl_append, List.foldl_cons]
  congr 1
  simp [hh, ha]

/-- C8: a submitted bowler whose id is in neither the home nor the away
substitution-extended bowler set contributes 0 to all four per-game team
accumulators — dropping that bowler from the submission leaves both the
accumulated totals and the stored game score/strike fields unchanged — and
`submitScores` completes normally (it is total here; the source has no
error path for an unattributed bowler). -/
theorem C8_unattributed_bowler_dropped (m : Match) (gn : Nat)
    (bs1 bs2 : List BowlerFrames) (b : BowlerFrames)
    (hh : b.bowlerId ∉ (matchTeamSets m).1) (ha : b.bowlerId ∉ (matchTeamSets m).2) :
    teamTotals (matchTeamSets m).1 (matchTeamSets m).2 (bs1 ++ b :: bs2) =
      teamTotals (matchTeamSets m).1 (matchTeamSets m).2 (bs1 ++ bs2) ∧
    (findGame (submitScores m ⟨gn, bs1 ++ b :: bs2⟩).games gn).map gameScoreFields =
      (findGame (submitScores m ⟨gn, bs1 ++ bs2⟩).games gn).map gameScoreFields := by
  have htot := teamTotals_skip (matchTeamSets m).1 (matchTeamSets m).2 bs1 bs2 b hh ha
  refine ⟨htot, ?_⟩
  obtain ⟨g1, _, _, hf1⟩ := submitScores_findGame m ⟨gn, bs1 ++ b :: bs2⟩
  obtain ⟨g2, _, _, hf2⟩ := submitScores_findGame m ⟨gn, bs1 ++ bs2⟩
  obtain ⟨_, ha1, hb1, hc1, hd1, _, _⟩ := submitScores_game_fields m ⟨gn, bs1 ++ b :: bs2⟩ _ hf1
  obtain ⟨_, ha2, hb2, hc2, hd2, _, _⟩ := submitScores_game_fields m ⟨gn, bs1 ++ bs2⟩ _ hf2
  rw [show (⟨gn, bs1 ++ b :: bs2⟩ : SubmitScoresDto).gameNumber = gn from rfl] at hf1
  rw [show (⟨gn, bs1 ++ bs2⟩ : SubmitScoresDto).gameNumber = gn from rfl] at hf2
  rw [hf1, hf2, Option.map_some', Option.map_some']
  unfold gameScoreFields
  rw [ha1, hb1, hc1, hd1, ha2, hb2, hc2, hd2]
  rw [show (⟨gn, bs1 ++ b :: bs2⟩ : SubmitScoresDto).bowlers = bs1 ++ b :: bs2 from rfl,
    show (⟨gn, bs1 ++ bs2⟩ : SubmitScoresDto).bowlers = bs1 ++ bs2 from rfl, htot]

/-- Witness for C8 at a concrete input: bowler `zz` is on neither roster of
`exMatch` (which has no substitutions), and dropping it changes neither the
team totals nor the stored game fields. -/
theorem C8_unattributed_bowler_witness :
    teamTotals (matchTeamSets exMatch).1 (matchTeamSets exMatch).2
        ([⟨"hb", [⟨1, 10, none, none, false⟩]⟩] ++
          ⟨"zz", [⟨1, 10, none, none, false⟩]⟩ :: []) =
      teamTotals (matchTeamSets exMatch).1 (matchTeamSets exMatch).2
        ([⟨"hb", [⟨1, 10, none, none, false⟩]⟩] ++ []) ∧
    (findGame (submitScores exMatch
          ⟨1, [⟨"hb", [⟨1, 10, none, none, false⟩]⟩] ++
            ⟨"zz", [⟨1, 10, none, none, false⟩]⟩ :: []⟩).games 1).map gameScoreFields =
      (findGame (submitScores exMatch
          ⟨1, [⟨"hb", [⟨1, 10, none, none, false⟩]⟩] ++ []⟩).games 1).map gameScoreFields :=
  C8_unattributed_bowler_dropped exMatch 1 [⟨"hb", [⟨1, 10, none, none, false⟩]⟩] []
    ⟨"zz", [⟨1, 10, none, none, false⟩]⟩ (by decide) (by decide)

/-! ### Frame-preservation support -/

theorem upsertFrame_mem_of_not_key {fs : List (String × Frame)} {p : String × Frame}
    (bid : String) (f : Frame) (hp : p ∈ fs)
    (hk : frameKeyIs bid f.frameNumber p = false) : p ∈ upsertFrame fs bid f := by
  unfold upsertFrame
  split
  · exact List.mem_map.mpr ⟨p, hp, by simp [hk]⟩
  · exact List.mem_append_left _ hp

theorem frameFold_mem_of_not_key (bid : String) :
    ∀ (fl : List Frame) (fs : List (String × Frame)) (p : String × Frame), p ∈ fs →
      (∀ f ∈ fl, frameKeyIs bid f.frameNumber p = false) →
      p ∈ fl.foldl (fun acc f => upsertFrame acc bid f) fs := by
  intro fl
  induction fl with
  | nil => intro fs p hp _; exact hp
  | cons f t ih =>
    intro fs p hp hk
    simp only [List.foldl_cons]
    exact ih _ p (upsertFrame_mem_of_not_key bid f hp (hk f (by simp)))
      (fun f2 hf2 => hk f2 (by simp [hf2]))

theorem applyFrameUpserts_mem_of_untouched :
    ∀ (bowlers : List BowlerFrames) (fs : List (String × Frame)) (p : String × Frame),
      p ∈ fs →
      (∀ b ∈ bowlers, ∀ f ∈ b.frames, frameKeyIs b.bowlerId f.frameNumber p = false) →
      p ∈ applyFrameUpserts fs bowlers := by
  intro bowlers
  induction bowlers with
  | nil => intro fs p hp _; exact hp
  | cons b t ih =>
    intro fs p hp hk
    unfold applyFrameUpserts at *
    simp only [List.foldl_cons]
    exact ih _ p
      (frameFold_mem_of_not_key b.bowlerId b.frames fs p hp
        (fun f hf => hk b (by simp) f hf))
      (fun b2 hb2 f hf => hk b2 (by simp [hb2]) f hf)

/-- C10: the score/strike fields written by `submitScores` are computed
solely from the bowlers and frames of the current submission — the stored
game's new fields equal the accumulators of `dto.bowlers` alone, its new
frame list is the old one with exactly the submitted frames upserted, and
every previously persisted frame whose `(bowlerId, frameNumber)` key is not
named in the submission is still stored afterwards (yet contributes nothing
to the new fields). -/
theorem C10_fields_from_submission_only (m : Match) (dto : SubmitScoresDto) (g₀ : Game)
    (hfound : findGame m.games dto.gameNumber = some g₀) :
    ∃ g, findGame (submitScores m dto).games dto.gameNumber = some g ∧
      g.frames = applyFrameUpserts g₀.frames dto.bowlers ∧
      g.homeTeamScore =
        some (teamTotals (matchTeamSets m).1 (matchTeamSets m).2 dto.bowlers).homeTeamScore ∧
      g.awayTeamScore =
        some (teamTotals (matchTeamSets m).1 (matchTeamSets m).2 dto.bowlers).awayTeamScore ∧
      g.homeTeamStrikes =
        some (teamTotals (matchTeamSets m).1 (matchTeamSets m).2 dto.bowlers).homeTeamStrikes ∧
      g.awayTeamStrikes =
        some (teamTotals (matchTeamSets m).1 (matchTeamSets m).2 dto.bowlers).awayTeamStrikes ∧
      (∀ p ∈ g₀.frames,
        (∀ b ∈ dto.bowlers, ∀ f ∈ b.frames, frameKeyIs b.bowlerId f.frameNumber p = false) →
        p ∈ g.frames) := by
  have hex : ∃ g ∈ m.games, g.gameNumber = dto.gameNumber := by
    refine ⟨g₀, List.mem_of_find?_eq_some hfound, ?_⟩
    simpa using List.find?_some hfound
  obtain ⟨g1, hfind1, hg1n, hfind⟩ := submitScores_findGame m dto
  rw [upsertGame_of_exists hex, hfound] at hfind1
  have hg1 : g1 = g₀ := by injection hfind1.symm
  subst hg1
  refine ⟨_, hfind, ?_⟩
  have hcond : (g1.gameNumber == dto.gameNumber) = true := by simp [hg1n]
  have hframes : (gameWithResults dto
      (teamTotals (matchTeamSets m).1 (matchTeamSets m).2 dto.bowlers)
      (gamePoints (teamTotals (matchTeamSets m).1 (matchTeamSets m).2 dto.bowlers))
      (gameWithFrames dto g1)).frames = applyFrameUpserts g1.frames dto.bowlers := by
    have hcond2 : ((gameWithFrames dto g1).gameNumber == dto.gameNumber) = true := by
      simp [gameWithFrames_gameNumber, hg1n]
    simp [gameWithResults, gameWithFrames, hcond, hcond2]
  refine ⟨hframes, ?_, ?_, ?_, ?_, ?_⟩
  · have hcond2 : ((gameWithFrames dto g1).gameNumber == dto.gameNumber) = true := by
      simp [gameWithFrames_gameNumber, hg1n]
    simp [gameWithResults, hcond2]
  · have hcond2 : ((gameWithFrames dto g1).gameNumber == dto.gameNumber) = true := by
      simp [gameWithFrames_gameNumber, hg1n]
    simp [gameWithResults, hcond2]
  · have hcond2 : ((gameWithFrames dto g1).gameNumber == dto.gameNumber) = true := by
      simp [gameWithFrames_gameNumber, hg1n]
    simp [gameWithResults, hcond2]
  · have hcond2 : ((gameWithFrames dto g1).gameNumber == dto.gameNumber) = true := by
      simp [gameWithFrames_gameNumber, hg1n]
    simp [gameWithResults, hcond2]
  · intro p hp hk
    rw [hframes]
    exact applyFrameUpserts_mem_of_untouched dto.bowlers g1.frames p hp hk

/-- Witness for C10 at a concrete input: game 1 of `exMatchWithGame` holds
an old home-bowler frame; submitting only the away bowler leaves that frame
stored while the new fields come from the submission alone. -/
theorem C10_fields_from_submission_witness :
    ∃ g, findGame (submitScores exMatchWithGame exDtoAwayOnly).games
        exDtoAwayOnly.gameNumber = some g ∧
      g.frames = applyFrameUpserts exStoredGame.frames exDtoAwayOnly.bowlers ∧
      g.homeTeamScore =
        some (teamTotals (matchTeamSets exMatchWithGame).1 (matchTeamSets exMatchWithGame).2
          exDtoAwayOnly.bowlers).homeTeamScore ∧
      g.awayTeamScore =
        some (teamTotals (matchTeamSets exMatchWithGame).1 (matchTeamSets exMatchWithGame).2
          exDtoAwayOnly.bowlers).awayTeamScore ∧
      g.homeTeamStrikes =
        some (teamTotals (matchTeamSets exMatchWithGame).1 (matchTeamSets exMatchWithGame).2
          exDtoAwayOnly.bowlers).homeTeamStrikes ∧
      g.awayTeamStrikes =
        some (teamTotals (matchTeamSets exMatchWithGame).1 (matchTeamSets exMatchWithGame).2
          exDtoAwayOnly.bowlers).awayTeamStrikes ∧
      (∀ p ∈ exStoredGame.frames,
        (∀ b ∈ exDtoAwayOnly.bowlers, ∀ f ∈ b.frames,
          frameKeyIs b.bowlerId f.frameNumber p = false) →
        p ∈ g.frames) :=
  C10_fields_from_submission_only exMatchWithGame exDtoAwayOnly exStoredGame (by decide)

/-- C9: `deleteSubstitution` leaves every game row — hence every game's
score, strike and point fields — untouched; it removes exactly the named
substitution record, so later aggregation runs (which reread
`m.substitutions`) see the reduced substitution set, and the match-level
aggregate fields are not recomputed either. -/
theorem C9_delete_substitution_no_rescore (m : Match) (sid : String) (m' : Match)
    (h : deleteSubstitution m sid = some m') :
    m'.games = m.games ∧
    m'.substitutions = m.substitutions.eraseP (fun s => s.id == sid) ∧
    m'.homeTeamPoints = m.homeTeamPoints ∧
    m'.awayTeamPoints = m.awayTeamPoints ∧
    m'.winningTeamId = m.winningTeamId := by
  unfold deleteSubstitution at h
  cases hfind : m.substitutions.find? (fun s => s.id == sid) with
  | none =>
    rw [hfind] at h
    exact absurd h (by simp)
  | some s =>
    rw [hfind] at h
    have hm : ({ m with substitutions := m.substitutions.eraseP (fun s => s.id == sid) } :
        Match) = m' := by
      injection h
    rw [← hm]
    exact ⟨rfl, rfl, rfl, rfl, rfl⟩

/-- Witness for C9 at a concrete input: deleting substitution `s1` from
`exMatchWithSub`. -/
theorem C9_delete_substitution_witness :
    exMatchSubDeleted.games = exMatchWithSub.games ∧
    exMatchSubDeleted.substitutions =
      exMatchWithSub.substitutions.eraseP (fun s => s.id == "s1") ∧
    exMatchSubDeleted.homeTeamPoints = exMatchWithSub.homeTeamPoints ∧
    exMatchSubDeleted.awayTeamPoints = exMatchWithSub.awayTeamPoints ∧
    exMatchSubDeleted.winningTeamId = exMatchWithSub.winningTeamId :=
  C9_delete_substitution_no_rescore exMatchWithSub "s1" exMatchSubDeleted (by decide)

/-! ### Substitution attribution support -/

theorem extendTeamSets_cons (h a : List String) (s : Substitution) (t : List Substitution) :
    extendTeamSets h a (s :: t) =
      if s.originalBowlerId ∈ h then extendTeamSets (s.substituteBowlerId :: h) a t
      else if s.originalBowlerId ∈ a then extendTeamSets h (s.substituteBowlerId :: a) t
      else extendTeamSets h a t := by
  simp only [extendTeamSets, List.foldl_cons]
  by_cases h1 : s.originalBowlerId ∈ h
  · simp [h1]
  · by_cases h2 : s.originalBowlerId ∈ a
    · simp [h1, h2]
    · simp [h1, h2]

theorem extendTeamSets_home_mono :
    ∀ (subs : List Substitution) (h a : List String) (x : String),
      x ∈ h → x ∈ (extendTeamSets h a subs).1 := by
  intro subs
  induction subs with
  | nil =>
    intro h a x hx
    simpa [extendTeamSets] using hx
  | cons s t ih =>
    intro h a x hx
    rw [extendTeamSets_cons]
    split_ifs with h1 h2
    · exact ih _ _ x (by simp [hx])
    · exact ih _ _ x hx
    · exact ih _ _ x hx

theorem extendTeamSets_away_mono :
    ∀ (subs : List Substitution) (h a : List String) (x : String),
      x ∈ a → x ∈ (extendTeamSets h a subs).2 := by
  intro subs
  induction subs with
  | nil =>
    intro h a x hx
    simpa [extendTeamSets] using hx
  | cons s t ih =>
    intro h a x hx
    rw [extendTeamSets_cons]
    split_ifs with h1 h2
    · exact ih _ _ x hx
    · exact ih _ _ x (by simp [hx])
    · exact ih _ _ x hx

theorem extendTeamSets_sub_home :
    ∀ (subs : List Substitution) (h a : List String) (sub : Substitution),
      sub ∈ subs → sub.originalBowlerId ∈ h →
      sub.substituteBowlerId ∈ (extendTeamSets h a subs).1 := by
  intro subs
  induction subs with
  | nil =>
    intro h a sub hmem
    simp at hmem
  | cons s t ih =>
    intro h a sub hmem horig
    rw [extendTeamSets_cons]
    rcases List.mem_cons.mp hmem with heq | hmem'
    · subst heq
      rw [if_pos horig]
      exact extendTeamSets_home_mono t _ _ _ (by simp)
    · split_ifs with h1 h2
      · exact ih _ _ sub hmem' (by simp [horig])
      · exact ih _ _ sub hmem' horig
      · exact ih _ _ sub hmem' horig

theorem extendTeamSets_sub_away :
    ∀ (subs : List Substitution) (h a : List String) (sub : Substitution),
      sub ∈ subs → sub.originalBowlerId ∈ a → sub.originalBowlerId ∉ h →
      (∀ s ∈ subs, s.substituteBowlerId ≠ sub.originalBowlerId) →
      sub.substituteBowlerId ∈ (extendTeamSets h a subs).2 := by
  intro subs
  induction subs with
  | nil =>
    intro h a sub hmem
    simp at hmem
  | cons s t ih =>
    intro h a sub hmem horig hnh hne
    rw [extendTeamSets_cons]
    rcases List.mem_cons.mp hmem with heq | hmem'
    · subst heq
      rw [if_neg hnh, if_pos horig]
      exact extendTeamSets_away_mono t _ _ _ (by simp)
    · split_ifs with h1 h2
      · refine ih _ _ sub hmem' horig ?_ (fun s2 hs2 => hne s2 (by simp [hs2]))
        simp only [List.mem_cons, not_or]
        exact ⟨(hne s (by simp)).symm ∘ Eq.symm ∘ Eq.symm, hnh⟩
      · exact ih _ _ sub hmem' (by simp [horig]) hnh
          (fun s2 hs2 => hne s2 (by simp [hs2]))
      · exact ih _ _ sub hmem' horig hnh (fun s2 hs2 => hne s2 (by simp [hs2]))

theorem extendTeamSets_not_away :
    ∀ (subs : List Substitution) (h a : List String) (x : String),
      x ∉ a →
      (∀ s ∈ subs, s.substituteBowlerId = x → s.originalBowlerId ∈ h) →
      x ∉ (extendTeamSets h a subs).2 := by
  intro subs
  induction subs with
  | nil =>
    intro h a x hx _
    simpa [extendTeamSets] using hx
  | cons s t ih =>
    intro h a x hx hcond
    rw [extendTeamSets_cons]
    split_ifs with h1 h2
    · exact ih _ _ x hx
        (fun s2 hs2 heq => List.mem_cons_of_mem _ (hcond s2 (by simp [hs2]) heq))
    · refine ih _ _ x ?_ (fun s2 hs2 heq => hcond s2 (by simp [hs2]) heq)
      simp only [List.mem_cons, not_or]
      refine ⟨?_, hx⟩
      intro hxe
      exact h1 (hcond s (by simp) hxe.symm)
    · exact ih _ _ x hx (fun s2 hs2 heq => hcond s2 (by simp [hs2]) heq)

theorem extendTeamSets_not_home :
    ∀ (subs : List Substitution) (h a : List String) (x : String),
      x ∉ h →
      (∀ s ∈ subs, s.substituteBowlerId = x →
        s.originalBowlerId ∉ h ∧ ∀ t2 ∈ subs, t2.substituteBowlerId ≠ s.originalBowlerId) →
      x ∉ (extendTeamSets h a subs).1 := by
  intro subs
  induction subs with
  | nil =>
    intro h a x hx _
    simpa [extendTeamSets] using hx
  | cons s t ih =>
    intro h a x hx hcond
    rw [extendTeamSets_cons]
    split_ifs with h1 h2
    · refine ih _ _ x ?_ ?_
      · simp only [List.mem_cons, not_or]
        refine ⟨?_, hx⟩
        intro hxe
        exact (hcond s (by simp) hxe.symm).1 h1
      · intro s2 hs2 heq
        obtain ⟨hno, hall⟩ := hcond s2 (by simp [hs2]) heq
        refine ⟨?_, fun t2 ht2 => hall t2 (by simp [ht2])⟩
        simp only [List.mem_cons, not_or]
        exact ⟨Ne.symm (hall s (by simp)), hno⟩
    · exact ih _ _ x hx
        (fun s2 hs2 heq =>
          ⟨(hcond s2 (by simp [hs2]) heq).1,
            fun t2 ht2 => (hcond s2 (by simp [hs2]) heq).2 t2 (by simp [ht2])⟩)
    · exact ih _ _ x hx
        (fun s2 hs2 heq =>
          ⟨(hcond s2 (by simp [hs2]) heq).1,
            fun t2 ht2 => (hcond s2 (by simp [hs2]) heq).2 t2 (by simp [ht2])⟩)

theorem teamTotals_append_home (homeIds awayIds : List String) (bs : List BowlerFrames)
    (x : String) (fs : List Frame) (hx : x ∈ homeIds) :
    teamTotals homeIds awayIds (bs ++ [⟨x, fs⟩]) =
      { teamTotals homeIds awayIds bs with
        homeTeamScore :=
          (teamTotals homeIds awayIds bs).homeTeamScore + calculateBowlerTotal fs
        homeTeamStrikes :=
          (teamTotals homeIds awayIds bs).homeTeamStrikes + countStrikes fs } := by
  unfold teamTotals
  rw [List.foldl_append, List.foldl_cons, List.foldl_nil]
  simp [hx]

theorem teamTotals_append_away (homeIds awayIds : List String) (bs : List BowlerFrames)
    (x : String) (fs : List Frame) (hxh : x ∉ homeIds) (hxa : x ∈ awayIds) :
    teamTotals homeIds awayIds (bs ++ [⟨x, fs⟩]) =
      { teamTotals homeIds awayIds bs with
        awayTeamScore :=
          (teamTotals homeIds awayIds bs).awayTeamScore + calculateBowlerTotal fs
        awayTeamStrikes :=
          (teamTotals homeIds awayIds bs).awayTeamStrikes + countStrikes fs } := by
  unfold teamTotals
  rw [List.foldl_append, List.foldl_cons, List.foldl_nil]
  simp [hxh, hxa]

theorem rosterFold_apply (teamId : String) :
    ∀ (l : List String) (f : String → Option String) (x : String),
      rosterFold teamId l f x = if x ∈ l then some teamId else f x := by
  intro l
  induction l with
  | nil =>
    intro f x
    simp [rosterFold]
  | cons b t ih =>
    intro f x
    unfold rosterFold at *
    simp only [List.foldl_cons]
    rw [ih]
    by_cases hxt : x ∈ t
    · simp [hxt]
    · by_cases hxb : x = b
      · simp [hxt, hxb, mapSet]
      · simp [hxt, hxb, mapSet]

theorem subsFold_pres :
    ∀ (subs : List Substitution) (f : String → Option String) (x : String),
      (∀ s ∈ subs, s.substituteBowlerId ≠ x) →
      subsFold subs f x = f x := by
  intro subs
  induction subs with
  | nil =>
    intro f x _
    rfl
  | cons s t ih =>
    intro f x hne
    unfold subsFold at *
    simp only [List.foldl_cons]
    rw [ih _ x (fun s2 hs2 => hne s2 (by simp [hs2]))]
    unfold subsStep
    cases hf : f s.originalBowlerId with
    | none => rfl
    | some v =>
      simp only [mapSet]
      rw [if_neg (fun he => (hne s (by simp)) he.symm)]

theorem subsFold_sets_value :
    ∀ (subs : List Substitution) (f : String → Option String) (sub : Substitution)
      (v : String),
      sub ∈ subs → subs.Nodup →
      (∀ s ∈ subs, s.substituteBowlerId ≠ sub.originalBowlerId) →
      (∀ s ∈ subs, s ≠ sub → s.substituteBowlerId ≠ sub.substituteBowlerId) →
      f sub.originalBowlerId = some v →
      subsFold subs f sub.substituteBowlerId = some v := by
  intro subs
  induction subs with
  | nil =>
    intro f sub v hmem
    simp at hmem
  | cons s t ih =>
    intro f sub v hmem hnd hne_orig hne_sub hval
    rcases List.mem_cons.mp hmem with heq | hmem'
    · subst heq
      have hnt : sub ∉ t := (List.nodup_cons.mp hnd).1
      have hstep : subsStep f sub = mapSet f sub.substituteBowlerId v := by
        unfold subsStep
        rw [hval]
      unfold subsFold
      simp only [List.foldl_cons]
      rw [hstep]
      have hpres : subsFold t (mapSet f sub.substituteBowlerId v) sub.substituteBowlerId =
          mapSet f sub.substituteBowlerId v sub.substituteBowlerId :=
        subsFold_pres t _ _
          (fun s2 hs2 =>
            hne_sub s2 (by simp [hs2]) (fun he => hnt (he ▸ hs2)))
      unfold subsFold at hpres
      rw [hpres]
      simp [mapSet]
    · unfold subsFold
      simp only [List.foldl_cons]
      have hstep : subsStep f s sub.originalBowlerId = some v := by
        unfold subsStep
        cases hf : f s.originalBowlerId with
        | none => exact hval
        | some w =>
          simp only [mapSet]
          rw [if_neg]
          · exact hval
          · exact fun he => hne_orig s (by simp) he.symm
      exact ih _ sub v hmem' (List.nodup_cons.mp hnd).2
        (fun s2 hs2 => hne_orig s2 (by simp [hs2]))
        (fun s2 hs2 hne2 => hne_sub s2 (by simp [hs2]) hne2)
        hstep

/-- C6: in both match settlement (`extendTeamSets`/`teamTotals`) and season
statistics (`bowlerToTeam`), a substitution's `substituteBowlerId` is
attributed to the team whose set contains its `originalBowlerId`: the
substitute lands in exactly that team's extended bowler set, its pins and
strikes are accumulated into that team's totals, and the statistics map
sends it to that team's id — never to a team of the substitute's own.
(Hypotheses mirror the persisted invariants: the substitute is on neither
roster, and no two substitutions of the match share a substitute.) -/
theorem C6_substitute_counts_for_original_team (m : Match) (sub : Substitution)
    (hsub : sub ∈ m.substitutions)
    (hroster : ∀ s ∈ m.substitutions,
      s.substituteBowlerId ∉ m.homeBowlers ∧ s.substituteBowlerId ∉ m.awayBowlers)
    (hnd : (m.substitutions.map (fun s => s.substituteBowlerId)).Nodup) :
    (sub.originalBowlerId ∈ m.homeBowlers → sub.originalBowlerId ∉ m.awayBowlers →
      sub.substituteBowlerId ∈ (matchTeamSets m).1 ∧
      sub.substituteBowlerId ∉ (matchTeamSets m).2 ∧
      (∀ (bs : List BowlerFrames) (fs : List Frame),
        teamTotals (matchTeamSets m).1 (matchTeamSets m).2
            (bs ++ [⟨sub.substituteBowlerId, fs⟩]) =
          { teamTotals (matchTeamSets m).1 (matchTeamSets m).2 bs with
            homeTeamScore :=
              (teamTotals (matchTeamSets m).1 (matchTeamSets m).2 bs).homeTeamScore +
                calculateBowlerTotal fs
            homeTeamStrikes :=
              (teamTotals (matchTeamSets m).1 (matchTeamSets m).2 bs).homeTeamStrikes +
                countStrikes fs }) ∧
      bowlerToTeam m sub.substituteBowlerId = some m.homeTeamId) ∧
    (sub.originalBowlerId ∈ m.awayBowlers → sub.originalBowlerId ∉ m.homeBowlers →
      sub.substituteBowlerId ∈ (matchTeamSets m).2 ∧
      sub.substituteBowlerId ∉ (matchTeamSets m).1 ∧
      (∀ (bs : List BowlerFrames) (fs : List Frame),
        teamTotals (matchTeamSets m).1 (matchTeamSets m).2
            (bs ++ [⟨sub.substituteBowlerId, fs⟩]) =
          { teamTotals (matchTeamSets m).1 (matchTeamSets m).2 bs with
            awayTeamScore :=
              (teamTotals (matchTeamSets m).1 (matchTeamSets m).2 bs).awayTeamScore +
                calculateBowlerTotal fs
            awayTeamStrikes :=
              (teamTotals (matchTeamSets m).1 (matchTeamSets m).2 bs).awayTeamStrikes +
                countStrikes fs }) ∧
      bowlerToTeam m sub.substituteBowlerId = some m.awayTeamId) := by
  have hndl : m.substitutions.Nodup := List.Nodup.of_map _ hnd
  have hinj := List.inj_on_of_nodup_map hnd
  constructor
  · intro horig hnota
    have hin1 : sub.substituteBowlerId ∈ (matchTeamSets m).1 :=
      extendTeamSets_sub_home m.substitutions m.homeBowlers m.awayBowlers sub hsub horig
    have hnotin2 : sub.substituteBowlerId ∉ (matchTeamSets m).2 := by
      apply extendTeamSets_not_away m.substitutions m.homeBowlers m.awayBowlers _
        (hroster sub hsub).2
      intro s hs heq
      have hseq : s = sub := hinj hs hsub heq
      rw [hseq]
      exact horig
    refine ⟨hin1, hnotin2, ?_, ?_⟩
    · intro bs fs
      exact teamTotals_append_home _ _ bs _ fs hin1
    · unfold bowlerToTeam
      apply subsFold_sets_value m.substitutions _ sub m.homeTeamId hsub hndl
      · intro s hs heq
        exact (hroster s hs).1 (by rw [heq]; exact horig)
      · intro s hs hne heq
        exact hne (hinj hs hsub heq)
      · rw [rosterFold_apply, rosterFold_apply]
        simp [hnota, horig]
  · intro horig hnoth
    have hne_orig : ∀ s ∈ m.substitutions, s.substituteBowlerId ≠ sub.originalBowlerId := by
      intro s hs heq
      exact (hroster s hs).2 (by rw [heq]; exact horig)
    have hin2 : sub.substituteBowlerId ∈ (matchTeamSets m).2 :=
      extendTeamSets_sub_away m.substitutions m.homeBowlers m.awayBowlers sub hsub horig
        hnoth hne_orig
    have hnotin1 : sub.substituteBowlerId ∉ (matchTeamSets m).1 := by
      apply extendTeamSets_not_home m.substitutions m.homeBowlers m.awayBowlers _
        (hroster sub hsub).1
      intro s hs heq
      have hseq : s = sub := hinj hs hsub heq
      subst hseq
      exact ⟨hnoth, hne_orig⟩
    refine ⟨hin2, hnotin1, ?_, ?_⟩
    · intro bs fs
      exact teamTotals_append_away _ _ bs _ fs hnotin1 hin2
    · unfold bowlerToTeam
      apply subsFold_sets_value m.substitutions _ sub m.awayTeamId hsub hndl
      · exact hne_orig
      · intro s hs hne heq
        exact hne (hinj hs hsub heq)
      · rw [rosterFold_apply]
        simp [horig]

/-- Witness for C6 at a concrete input: on `exMatchWithSub` the substitute
`sb` for the home bowler `hb` counts toward the home side everywhere. -/
theorem C6_substitute_attribution_witness :
    exSub.substituteBowlerId ∈ (matchTeamSets exMatchWithSub).1 ∧
    exSub.substituteBowlerId ∉ (matchTeamSets exMatchWithSub).2 ∧
    teamTotals (matchTeamSets exMatchWithSub).1 (matchTeamSets exMatchWithSub).2
        ([] ++ [⟨exSub.substituteBowlerId, [⟨1, 10, none, none, false⟩]⟩]) =
      { teamTotals (matchTeamSets exMatchWithSub).1 (matchTeamSets exMatchWithSub).2 [] with
        homeTeamScore :=
          (teamTotals (matchTeamSets exMatchWithSub).1
            (matchTeamSets exMatchWithSub).2 []).homeTeamScore +
            calculateBowlerTotal [⟨1, 10, none, none, false⟩]
        homeTeamStrikes :=
          (teamTotals (matchTeamSets exMatchWithSub).1
            (matchTeamSets exMatchWithSub).2 []).homeTeamStrikes +
            countStrikes [⟨1, 10, none, none, false⟩] } ∧
    bowlerToTeam exMatchWithSub exSub.substituteBowlerId =
      some exMatchWithSub.homeTeamId := by
  obtain ⟨h1, h2, h3, h4⟩ :=
    (C6_substitute_counts_for_original_team exMatchWithSub exSub (by decide) (by decide)
      (by decide)).1 (by decide) (by decide)
  exact ⟨h1, h2, h3 [] [⟨1, 10, none, none, false⟩], h4⟩

/-! ### Round-robin: loop unrolling and rotation indexing -/

theorem rrFold_eq (first : String) (n : Nat) :
    ∀ (k : Nat) (ms : List RRMatch) (rot : List String),
      (List.range k).foldl
          (fun acc round =>
            (acc.1 ++ roundPairings first n acc.2 (round + 1), rotateRight1 acc.2))
          (ms, rot) =
        (ms ++ (List.range k).flatMap
            (fun r => roundPairings first n (rotateRight1^[r] rot) (r + 1)),
          rotateRight1^[k] rot) := by
  intro k
  induction k with
  | zero => intro ms rot; simp
  | succ k ih =>
    intro ms rot
    rw [List.range_succ, List.foldl_append, ih]
    simp only [List.foldl_cons, List.foldl_nil, List.range_succ, List.flatMap_append]
    rw [Function.iterate_succ_apply']
    simp [List.append_assoc]

theorem buildRoundRobin_eq_flat (ids : List String) :
    buildRoundRobin ids =
      (List.range ((paddedTeams ids).length - 1)).flatMap
        (fun r => roundPairings ((paddedTeams ids).headD "") (paddedTeams ids).length
          (rotateRight1^[r] ((paddedTeams ids).drop 1)) (r + 1)) := by
  simp only [buildRoundRobin]
  rw [rrFold_eq]
  simp

theorem rotateRight1_eq_rotate (l : List String) (hl : l ≠ []) :
    rotateRight1 l = l.rotate (l.length - 1) := by
  have hpos : 0 < l.length := List.length_pos.mpr hl
  unfold rotateRight1
  rw [List.getLast?_eq_getLast l hl]
  rw [List.rotate_eq_drop_append_take (Nat.sub_le _ _)]
  rw [List.drop_eq_getElem_cons (show l.length - 1 < l.length by omega)]
  have h1 : l.length - 1 + 1 = l.length := by omega
  rw [h1, List.drop_length, List.dropLast_eq_take]
  simp [List.getLast_eq_getElem]

theorem rotateRight1_iterate (l : List String) (hl : l ≠ []) (r : Nat) :
    rotateRight1^[r] l = l.rotate (r * (l.length - 1)) := by
  induction r with
  | zero => simp
  | succ r ih =>
    rw [Function.iterate_succ_apply', ih]
    have hne : l.rotate (r * (l.length - 1)) ≠ [] := by
      rw [Ne, List.rotate_eq_nil_iff]
      exact hl
    rw [rotateRight1_eq_rotate _ hne, List.length_rotate, List.rotate_rotate]
    congr 1
    ring

theorem rotate_getD (l : List String) (k j : Nat) (hj : j < l.length) (d : String) :
    (l.rotate k).getD j d = l.getD ((j + k) % l.length) d := by
  have hpos : 0 < l.length := by omega
  have h1 : j < (l.rotate k).length := by rw [List.length_rotate]; exact hj
  rw [List.getD_eq_getElem _ _ h1,
    List.getD_eq_getElem _ _ (Nat.mod_lt _ hpos), List.getElem_rotate]

theorem rotIter_getD (l : List String) (hl : l ≠ []) (r j : Nat) (hj : j < l.length)
    (d : String) :
    (rotateRight1^[r] l).getD j d = l.getD ((j + r * (l.length - 1)) % l.length) d := by
  rw [rotateRight1_iterate l hl r, rotate_getD _ _ _ hj]

/-! ### Counting helpers -/

theorem sum_map_range_zero (g : Nat → Nat) :
    ∀ k, (∀ r < k, g r = 0) → ((List.range k).map g).sum = 0 := by
  intro k
  induction k with
  | zero => simp
  | succ k ih =>
    intro h
    rw [List.range_succ, List.map_append, List.sum_append,
      ih (fun r hr => h r (by omega))]
    simp [h k (by omega)]

theorem sum_map_range_single (g : Nat → Nat) :
    ∀ (k r0 : Nat), r0 < k → (∀ r < k, r ≠ r0 → g r = 0) →
      ((List.range k).map g).sum = g r0 := by
  intro k
  induction k with
  | zero => intro r0 h; omega
  | succ k ih =>
    intro r0 h0 h
    rw [List.range_succ, List.map_append, List.sum_append]
    by_cases hr : r0 = k
    · rw [sum_map_range_zero g k (fun r hrk => h r (by omega) (by omega))]
      simp [hr]
    · rw [ih r0 (by omega) (fun r hrk hne => h r (by omega) hne)]
      simp [h k (by omega) (by omega : k ≠ r0)]

theorem countP_range_zero (p : Nat → Bool) (k : Nat) (h : ∀ i < k, p i = false) :
    (List.range k).countP p = 0 := by
  rw [List.countP_eq_zero]
  intro a ha
  rw [h a (List.mem_range.mp ha)]
  simp

theorem countP_range_one (p : Nat → Bool) (k i0 : Nat) (h0 : i0 < k) (h1 : p i0 = true)
    (h2 : ∀ i < k, p i = true → i = i0) : (List.range k).countP p = 1 := by
  induction k with
  | zero => omega
  | succ k ih =>
    rw [List.range_succ, List.countP_append]
    by_cases hi : i0 = k
    · subst hi
      rw [countP_range_zero p i0
        (fun i hik => by
          by_contra hc
          have := h2 i (by omega) (by simpa using hc)
          omega)]
      simp [List.countP_cons, h1]
    · have hpk : p k = false := by
        by_contra hc
        have := h2 k (by omega) (by simpa using hc)
        exact hi this.symm
      rw [ih (by omega) (fun i hik hpi => h2 i (by omega) hpi)]
      simp [List.countP_cons, hpk]

theorem length_filterMap_eq_countP {α β : Type} (f : α → Option β) (l : List α) :
    (l.filterMap f).length = l.countP (fun a => (f a).isSome) := by
  induction l with
  | nil => rfl
  | cons a t ih =>
    cases hf : f a <;> simp [List.filterMap_cons, hf, List.countP_cons, ih]

/-! ### ZMod helpers for the circle method -/

theorem zmod_cast_val {m : Nat} [NeZero m] (z : ZMod m) : ((z.val : Nat) : ZMod m) = z := by
  rw [ZMod.natCast_val, ZMod.cast_id]

theorem zmod_val_pos {m : Nat} {t : ZMod m} (ht : t ≠ 0) : 0 < t.val := by
  rcases Nat.eq_zero_or_pos t.val with h | h
  · exact absurd ((ZMod.val_eq_zero t).mp h) ht
  · exact h

theorem zmod_sub_one {m : Nat} [NeZero m] (hpos : 0 < m) :
    ((m - 1 : Nat) : ZMod m) = -1 := by
  apply eq_neg_of_add_eq_zero_left
  have h : ((m - 1 : Nat) : ZMod m) + ((1 : Nat) : ZMod m) = 0 := by
    rw [← Nat.cast_add, Nat.sub_add_cancel (by omega), ZMod.natCast_self]
  simpa using h

theorem zmod_two_mul_half {m : Nat} (hm : m % 2 = 1) :
    (2 : ZMod m) * (((m + 1) / 2 : Nat) : ZMod m) = 1 := by
  have h2 : 2 * ((m + 1) / 2) = m + 1 := by omega
  have : ((2 * ((m + 1) / 2) : Nat) : ZMod m) = ((m + 1 : Nat) : ZMod m) := by rw [h2]
  rw [Nat.cast_mul, Nat.cast_ofNat] at this
  rw [this, Nat.cast_add, Nat.cast_one, ZMod.natCast_self, zero_add]

theorem zmod_two_cancel {m : Nat} (hm : m % 2 = 1) {u v : ZMod m}
    (h : 2 * u = 2 * v) : u = v := by
  have e : ∀ w : ZMod m, (((m + 1) / 2 : Nat) : ZMod m) * (2 * w) = w := by
    intro w
    rw [← mul_assoc, mul_comm (((m + 1) / 2 : Nat) : ZMod m) 2, zmod_two_mul_half hm,
      one_mul]
  rw [← e u, h, e v]

theorem zmod_neg_val {m : Nat} [NeZero m] {t : ZMod m} (ht : t ≠ 0) :
    (-t).val = m - t.val := by
  rw [ZMod.neg_val, if_neg ht]

theorem halfRep_mem {m : Nat} [NeZero m] (hm : m % 2 = 1) (t : ZMod m) (ht : t ≠ 0) :
    1 ≤ halfRep m t ∧ halfRep m t ≤ (m - 1) / 2 ∧
      (((halfRep m t : Nat) : ZMod m) = t ∨ ((halfRep m t : Nat) : ZMod m) = -t) := by
  have hvlt : t.val < m := ZMod.val_lt t
  have hvpos : 0 < t.val := zmod_val_pos ht
  unfold halfRep
  split_ifs with hle
  · exact ⟨hvpos, hle, Or.inl (zmod_cast_val t)⟩
  · refine ⟨by omega, by omega, Or.inr ?_⟩
    rw [← zmod_neg_val ht, zmod_cast_val]

theorem halfRep_unique {m : Nat} [NeZero m] (hm : m % 2 = 1) (t : ZMod m) (ht : t ≠ 0)
    (i : Nat) (h1 : 1 ≤ i) (h2 : i ≤ (m - 1) / 2)
    (h3 : ((i : Nat) : ZMod m) = t ∨ ((i : Nat) : ZMod m) = -t) : i = halfRep m t := by
  have hvlt : t.val < m := ZMod.val_lt t
  have hvpos : 0 < t.val := zmod_val_pos ht
  have him : i < m := by omega
  unfold halfRep
  rcases h3 with h | h
  · have hi : i = t.val := by rw [← h, ZMod.val_cast_of_lt him]
    split_ifs with hle
    · exact hi
    · omega
  · have hneg : (-t).val = m - t.val := zmod_neg_val ht
    have hi : i = m - t.val := by rw [← hneg, ← h, ZMod.val_cast_of_lt him]
    split_ifs with hle
    · omega
    · exact hi

/-! ### Rotation indexing in `ZMod` form -/

theorem rotateRight1_length (l : List String) : (rotateRight1 l).length = l.length := by
  unfold rotateRight1
  cases hl : l.getLast? with
  | none => rfl
  | some x =>
    have hne : l ≠ [] := by
      intro h
      subst h
      simp at hl
    have hpos : 0 < l.length := List.length_pos.mpr hne
    simp only [List.length_cons, List.length_dropLast]
    omega

theorem rotateRight1_iterate_length (l : List String) (r : Nat) :
    (rotateRight1^[r] l).length = l.length := by
  induction r with
  | zero => rfl
  | succ r ih => rw [Function.iterate_succ_apply', rotateRight1_length, ih]

theorem rotIter_getD_zmod {m : Nat} [NeZero m] (rot0 : List String)
    (hlen : rot0.length = m) (r j : Nat) (hj : j < m) :
    (rotateRight1^[r] rot0).getD j "" = rotElem m rot0 ((j : ZMod m) - (r : ZMod m)) := by
  have hpos : 0 < m := Nat.pos_of_ne_zero (NeZero.ne m)
  have hne : rot0 ≠ [] := by
    intro h
    rw [h] at hlen
    simp at hlen
    omega
  rw [rotIter_getD rot0 hne r j (by omega)]
  unfold rotElem
  congr 1
  rw [hlen]
  have hz : (j : ZMod m) - (r : ZMod m) = ((j + r * (m - 1) : Nat) : ZMod m) := by
    push_cast
    rw [zmod_sub_one hpos]
    ring
  rw [hz, ZMod.val_natCast]

theorem pairAt_eq (first : String) (rot0 : List String) {m : Nat} [NeZero m]
    (hlen : rot0.length = m) (hm : m % 2 = 1) (r i week : Nat) (hi : i < (m + 1) / 2) :
    pairAt first (rotateRight1^[r] rot0) (m + 1) i week =
      if i = 0 then ⟨first, rotElem m rot0 (-1 - (r : ZMod m)), week⟩
      else
        ⟨rotElem m rot0 ((i : ZMod m) - 1 - (r : ZMod m)),
          rotElem m rot0 (-(i : ZMod m) - 1 - (r : ZMod m)), week⟩ := by
  have hpos : 0 < m := Nat.pos_of_ne_zero (NeZero.ne m)
  by_cases h0 : i = 0
  · subst h0
    rw [if_pos rfl]
    unfold pairAt
    have ha : m + 1 - 1 - 0 = (m - 1) + 1 := by omega
    rw [ha, List.getD_cons_zero, List.getD_cons_succ,
      rotIter_getD_zmod rot0 hlen r (m - 1) (by omega)]
    have he : ((m - 1 : Nat) : ZMod m) - (r : ZMod m) = -1 - (r : ZMod m) := by
      rw [zmod_sub_one hpos]
    rw [he]
  · rw [if_neg h0]
    unfold pairAt
    have hi1 : 1 ≤ i := by omega
    have hmge : 3 ≤ m := by omega
    have hisub : i ≤ (m - 1) / 2 := by omega
    have hexp : i = (i - 1) + 1 := by omega
    have ha : m + 1 - 1 - i = (m - i - 1) + 1 := by omega
    rw [show (first :: rotateRight1^[r] rot0).getD i "" =
        (rotateRight1^[r] rot0).getD (i - 1) "" from by
      rw [hexp]
      exact List.getD_cons_succ]
    rw [show (first :: rotateRight1^[r] rot0).getD (m + 1 - 1 - i) "" =
        (rotateRight1^[r] rot0).getD (m - i - 1) "" from by
      rw [ha]
      exact List.getD_cons_succ]
    rw [rotIter_getD_zmod rot0 hlen r (i - 1) (by omega),
      rotIter_getD_zmod rot0 hlen r (m - i - 1) (by omega)]
    have e1 : ((i - 1 : Nat) : ZMod m) - (r : ZMod m) =
        (i : ZMod m) - 1 - (r : ZMod m) := by
      rw [Nat.cast_sub hi1, Nat.cast_one]
    have e2 : ((m - i - 1 : Nat) : ZMod m) - (r : ZMod m) =
        -(i : ZMod m) - 1 - (r : ZMod m) := by
      have hms : m - i - 1 = m - (i + 1) := by omega
      rw [hms, Nat.cast_sub (by omega : i + 1 ≤ m), ZMod.natCast_self]
      push_cast
      ring
    rw [e1, e2]

/-! ### Per-round pairing counts -/

theorem roundPairings_eq_filterMap (first : String) (n : Nat) (rot : List String)
    (week : Nat) :
    roundPairings first n rot week =
      (List.range (n / 2)).filterMap (fun i =>
        if (pairAt first rot n i week).homeTeamId ≠ byeMarker ∧
            (pairAt first rot n i week).awayTeamId ≠ byeMarker
          then some (pairAt first rot n i week) else none) := rfl

theorem countP_roundPairings (first : String) (n : Nat) (rot : List String) (week : Nat)
    (q : RRMatch → Bool)
    (hq : ∀ p, q p = true → p.homeTeamId ≠ byeMarker ∧ p.awayTeamId ≠ byeMarker) :
    (roundPairings first n rot week).countP q =
      (List.range (n / 2)).countP (fun i => q (pairAt first rot n i week)) := by
  rw [roundPairings_eq_filterMap, List.countP_filterMap]
  apply List.countP_congr
  intro i _
  by_cases hcond : (pairAt first rot n i week).homeTeamId ≠ byeMarker ∧
      (pairAt first rot n i week).awayTeamId ≠ byeMarker
  · simp [hcond]
  · cases hqp : q (pairAt first rot n i week)
    · simp [hcond, hqp]
    · exact absurd (hq _ hqp) hcond

theorem mem_roundPairings_week (first : String) (n : Nat) (rot : List String)
    (week : Nat) (p : RRMatch) (hp : p ∈ roundPairings first n rot week) :
    p.week = week := by
  rw [roundPairings_eq_filterMap] at hp
  obtain ⟨i, _, hf⟩ := List.mem_filterMap.mp hp
  split_ifs at hf with hc
  injection hf with h
  rw [← h]
  rfl

theorem rotElem_mem {m : Nat} [NeZero m] (rot0 : List String) (hlen : rot0.length = m)
    (z : ZMod m) : rotElem m rot0 z ∈ rot0 := by
  unfold rotElem
  rw [List.getD_eq_getElem rot0 "" (by rw [hlen]; exact ZMod.val_lt z)]
  exact List.getElem_mem _

theorem rotElem_inj {m : Nat} [NeZero m] (rot0 : List String) (hlen : rot0.length = m)
    (hndrot : rot0.Nodup) {z w : ZMod m}
    (h : rotElem m rot0 z = rotElem m rot0 w) : z = w := by
  unfold rotElem at h
  rw [List.getD_eq_getElem rot0 "" (by rw [hlen]; exact ZMod.val_lt z),
    List.getD_eq_getElem rot0 "" (by rw [hlen]; exact ZMod.val_lt w)] at h
  have hv : z.val = w.val := (hndrot.getElem_inj_iff).mp h
  rw [← zmod_cast_val z, ← zmod_cast_val w, hv]

theorem rotElem_surj {m : Nat} [NeZero m] (rot0 : List String) (hlen : rot0.length = m)
    {w : String} (hw : w ∈ rot0) : ∃ z : ZMod m, rotElem m rot0 z = w := by
  obtain ⟨idx, hidx, heq⟩ := List.mem_iff_getElem.mp hw
  refine ⟨(idx : ZMod m), ?_⟩
  unfold rotElem
  rw [ZMod.val_natCast, Nat.mod_eq_of_lt (by omega : idx < m),
    List.getD_eq_getElem rot0 "" hidx]
  exact heq

theorem countP_roundPairings_week (first : String) (n : Nat) (rot : List String)
    (week w : Nat) :
    (roundPairings first n rot week).countP (fun p => p.week == w) =
      if week = w then (roundPairings first n rot week).length else 0 := by
  split_ifs with hw
  · rw [List.countP_eq_length.mpr]
    intro p hp
    have := mem_roundPairings_week first n rot week p hp
    simp [this, hw]
  · rw [List.countP_eq_zero.mpr]
    intro p hp
    have := mem_roundPairings_week first n rot week p hp
    simp [this, hw]

/-! ### The circle method hits every pair exactly once -/

theorem rrRaw_count_first (first : String) (rot0 : List String) {m : Nat} [NeZero m]
    (hlen : rot0.length = m) (hm : m % 2 = 1) (hnd : (first :: rot0).Nodup)
    (y : String) (hy : y ∈ rot0) (hbf : first ≠ byeMarker) (hby : y ≠ byeMarker) :
    (rrRaw first rot0).countP (pairIs first y) = 1 := by
  have hpos : 0 < m := Nat.pos_of_ne_zero (NeZero.ne m)
  have hndrot : rot0.Nodup := (List.nodup_cons.mp hnd).2
  have hfn : first ∉ rot0 := (List.nodup_cons.mp hnd).1
  obtain ⟨b, hb⟩ := rotElem_surj rot0 hlen hy
  have hfy : first ≠ y := fun he => hfn (he ▸ hy)
  have hq : ∀ p : RRMatch, pairIs first y p = true →
      p.homeTeamId ≠ byeMarker ∧ p.awayTeamId ≠ byeMarker := by
    intro p hp
    simp only [pairIs, Bool.or_eq_true, Bool.and_eq_true, beq_iff_eq] at hp
    rcases hp with ⟨h1, h2⟩ | ⟨h1, h2⟩
    · rw [h1, h2]
      exact ⟨hbf, hby⟩
    · rw [h1, h2]
      exact ⟨hby, hbf⟩
  unfold rrRaw
  rw [hlen, List.countP_flatMap]
  set r0 : Nat := (-1 - b).val with hr0def
  have hr0m : r0 < m := ZMod.val_lt _
  have hr0z : ((r0 : Nat) : ZMod m) = -1 - b := zmod_cast_val _
  have hground : ∀ r ∈ List.range m,
      (List.countP (pairIs first y) ∘ fun r =>
        roundPairings first (m + 1) (rotateRight1^[r] rot0) (r + 1)) r =
      (fun r => (List.range ((m + 1) / 2)).countP
        (fun i => pairIs first y (pairAt first (rotateRight1^[r] rot0) (m + 1) i (r + 1)))) r := by
    intro r _
    exact countP_roundPairings first (m + 1) (rotateRight1^[r] rot0) (r + 1) _ hq
  rw [List.map_congr_left hground]
  have hzero : ∀ r < m, r ≠ r0 →
      (fun r => (List.range ((m + 1) / 2)).countP
        (fun i => pairIs first y (pairAt first (rotateRight1^[r] rot0) (m + 1) i (r + 1)))) r
        = 0 := by
    intro r hrm hrne
    apply countP_range_zero
    intro i hi
    rw [pairAt_eq first rot0 hlen hm r i (r + 1) hi]
    by_cases h0 : i = 0
    · rw [if_pos h0]
      have hEy : rotElem m rot0 (-1 - (r : ZMod m)) ≠ y := by
        intro he
        rw [← hb] at he
        have hz := rotElem_inj rot0 hlen hndrot he
        have hrz : (r : ZMod m) = -1 - b := by
          rw [← hz]
          ring
        apply hrne
        calc r = ((r : ZMod m)).val := (ZMod.val_cast_of_lt hrm).symm
          _ = (-1 - b).val := by rw [hrz]
          _ = r0 := rfl
      simp [pairIs, hfy, hEy]
    · rw [if_neg h0]
      have h1 : rotElem m rot0 ((i : ZMod m) - 1 - (r : ZMod m)) ≠ first :=
        fun he => hfn (he ▸ rotElem_mem rot0 hlen _)
      have h2 : rotElem m rot0 (-(i : ZMod m) - 1 - (r : ZMod m)) ≠ first :=
        fun he => hfn (he ▸ rotElem_mem rot0 hlen _)
      simp [pairIs, h1, h2]
  have hone : (fun r => (List.range ((m + 1) / 2)).countP
      (fun i => pairIs first y (pairAt first (rotateRight1^[r] rot0) (m + 1) i (r + 1)))) r0
      = 1 := by
    apply countP_range_one _ _ 0 (by omega)
    · rw [pairAt_eq first rot0 hlen hm r0 0 (r0 + 1) (by omega), if_pos rfl]
      have hEb : rotElem m rot0 (-1 - (r0 : ZMod m)) = y := by
        rw [hr0z, show -1 - (-1 - b) = b from by ring]
        exact hb
      simp [pairIs, hEb]
    · intro i hi hp
      by_contra h0
      rw [pairAt_eq first rot0 hlen hm r0 i (r0 + 1) hi, if_neg h0] at hp
      simp only [pairIs, Bool.or_eq_true, Bool.and_eq_true, beq_iff_eq] at hp
      have h1 : rotElem m rot0 ((i : ZMod m) - 1 - (r0 : ZMod m)) ≠ first :=
        fun he => hfn (he ▸ rotElem_mem rot0 hlen _)
      have h2 : rotElem m rot0 (-(i : ZMod m) - 1 - (r0 : ZMod m)) ≠ first :=
        fun he => hfn (he ▸ rotElem_mem rot0 hlen _)
      rcases hp with ⟨hh, _⟩ | ⟨_, hh⟩
      · exact h1 hh
      · exact h2 hh
  rw [sum_map_range_single _ m r0 hr0m hzero]
  exact hone

theorem rrRaw_count_rot (first : String) (rot0 : List String) {m : Nat} [NeZero m]
    (hlen : rot0.length = m) (hm : m % 2 = 1) (hnd : (first :: rot0).Nodup)
    (x y : String) (hxr : x ∈ rot0) (hyr : y ∈ rot0) (hxy : x ≠ y)
    (hbx : x ≠ byeMarker) (hby : y ≠ byeMarker) :
    (rrRaw first rot0).countP (pairIs x y) = 1 := by
  have hpos : 0 < m := Nat.pos_of_ne_zero (NeZero.ne m)
  have hndrot : rot0.Nodup := (List.nodup_cons.mp hnd).2
  have hfn : first ∉ rot0 := (List.nodup_cons.mp hnd).1
  obtain ⟨a, ha⟩ := rotElem_surj rot0 hlen hxr
  obtain ⟨b, hb⟩ := rotElem_surj rot0 hlen hyr
  have hab : a ≠ b := by
    intro he
    apply hxy
    rw [← ha, ← hb, he]
  have hxf : x ≠ first := fun he => hfn (he ▸ hxr)
  have hyf : y ≠ first := fun he => hfn (he ▸ hyr)
  have hq : ∀ p : RRMatch, pairIs x y p = true →
      p.homeTeamId ≠ byeMarker ∧ p.awayTeamId ≠ byeMarker := by
    intro p hp
    simp only [pairIs, Bool.or_eq_true, Bool.and_eq_true, beq_iff_eq] at hp
    rcases hp with ⟨h1, h2⟩ | ⟨h1, h2⟩
    · rw [h1, h2]
      exact ⟨hbx, hby⟩
    · rw [h1, h2]
      exact ⟨hby, hbx⟩
  -- the unique solution of the pairing equations
  set inv2 : ZMod m := (((m + 1) / 2 : Nat) : ZMod m) with hinv2
  have h2inv : (2 : ZMod m) * inv2 = 1 := zmod_two_mul_half hm
  set d : ZMod m := inv2 * (a - b) with hddef
  have h2d : 2 * d = a - b := by
    rw [hddef, ← mul_assoc, h2inv, one_mul]
  have hd : d ≠ 0 := by
    intro he
    apply hab
    have : a - b = 0 := by
      rw [← h2d, he, mul_zero]
    rwa [sub_eq_zero] at this
  set ρ : ZMod m := inv2 * (-2 - a - b) with hρdef
  have h2ρ : 2 * ρ = -2 - a - b := by
    rw [hρdef, ← mul_assoc, h2inv, one_mul]
  set r0 : Nat := ρ.val with hr0def
  have hr0m : r0 < m := ZMod.val_lt _
  have hr0z : ((r0 : Nat) : ZMod m) = ρ := zmod_cast_val _
  obtain ⟨hi01, hi02, hi0pm⟩ := halfRep_mem hm d hd
  set i0 : Nat := halfRep m d with hi0def
  have hi0half : i0 < (m + 1) / 2 := by omega
  have hi00 : i0 ≠ 0 := by omega
  -- the pair at (r0, i0) is {x, y}
  have hK1 : ∀ u : ZMod m, u = d → u - 1 - ρ = a ∧ -u - 1 - ρ = b := by
    intro u hu
    subst hu
    constructor
    · apply zmod_two_cancel hm
      rw [mul_sub, mul_sub, h2d, h2ρ]
      ring
    · apply zmod_two_cancel hm
      rw [mul_sub, mul_sub, mul_neg, h2d, h2ρ]
      ring
  have hK2 : ∀ u : ZMod m, u = -d → u - 1 - ρ = b ∧ -u - 1 - ρ = a := by
    intro u hu
    subst hu
    constructor
    · apply zmod_two_cancel hm
      rw [mul_sub, mul_sub, mul_neg, h2d, h2ρ]
      ring
    · apply zmod_two_cancel hm
      rw [mul_sub, mul_sub, neg_neg, h2d, h2ρ]
      ring
  unfold rrRaw
  rw [hlen, List.countP_flatMap]
  have hground : ∀ r ∈ List.range m,
      (List.countP (pairIs x y) ∘ fun r =>
        roundPairings first (m + 1) (rotateRight1^[r] rot0) (r + 1)) r =
      (fun r => (List.range ((m + 1) / 2)).countP
        (fun i => pairIs x y (pairAt first (rotateRight1^[r] rot0) (m + 1) i (r + 1)))) r := by
    intro r _
    exact countP_roundPairings first (m + 1) (rotateRight1^[r] rot0) (r + 1) _ hq
  rw [List.map_congr_left hground]
  -- a predicate-true pairing at inner index ≥ 1 forces the round and index
  have hmain : ∀ r < m, ∀ i, i < (m + 1) / 2 → i ≠ 0 →
      pairIs x y (pairAt first (rotateRight1^[r] rot0) (m + 1) i (r + 1)) = true →
      r = r0 ∧ i = i0 := by
    intro r hrm i hi h0 hp
    rw [pairAt_eq first rot0 hlen hm r i (r + 1) hi, if_neg h0] at hp
    simp only [pairIs, Bool.or_eq_true, Bool.and_eq_true, beq_iff_eq] at hp
    have hstep : ((i : ZMod m) = d ∨ (i : ZMod m) = -d) ∧ (r : ZMod m) = ρ := by
      rcases hp with ⟨h1, h2⟩ | ⟨h1, h2⟩
      · rw [← ha] at h1
        rw [← hb] at h2
        have e1 := rotElem_inj rot0 hlen hndrot h1
        have e2 := rotElem_inj rot0 hlen hndrot h2
        constructor
        · left
          apply zmod_two_cancel hm
          rw [h2d, ← e1, ← e2]
          ring
        · apply zmod_two_cancel hm
          rw [h2ρ, ← e1, ← e2]
          ring
      · rw [← hb] at h1
        rw [← ha] at h2
        have e1 := rotElem_inj rot0 hlen hndrot h1
        have e2 := rotElem_inj rot0 hlen hndrot h2
        constructor
        · right
          apply zmod_two_cancel hm
          rw [mul_neg, h2d, ← e1, ← e2]
          ring
        · apply zmod_two_cancel hm
          rw [h2ρ, ← e1, ← e2]
          ring
    obtain ⟨hipm, hrz⟩ := hstep
    constructor
    · calc r = ((r : ZMod m)).val := (ZMod.val_cast_of_lt hrm).symm
        _ = ρ.val := by rw [hrz]
        _ = r0 := rfl
    · exact halfRep_unique hm d hd i (by omega) (by omega) hipm
  have hzero : ∀ r < m, r ≠ r0 →
      (fun r => (List.range ((m + 1) / 2)).countP
        (fun i => pairIs x y (pairAt first (rotateRight1^[r] rot0) (m + 1) i (r + 1)))) r
        = 0 := by
    intro r hrm hrne
    apply countP_range_zero
    intro i hi
    by_cases h0 : i = 0
    · rw [pairAt_eq first rot0 hlen hm r i (r + 1) hi, if_pos h0]
      simp [pairIs, Ne.symm hxf, Ne.symm hyf]
    · cases hpv : pairIs x y (pairAt first (rotateRight1^[r] rot0) (m + 1) i (r + 1)) with
      | false => rfl
      | true => exact absurd (hmain r hrm i hi h0 hpv).1 hrne
  have hone : (fun r => (List.range ((m + 1) / 2)).countP
      (fun i => pairIs x y (pairAt first (rotateRight1^[r] rot0) (m + 1) i (r + 1)))) r0
      = 1 := by
    apply countP_range_one _ _ i0 hi0half
    · rw [pairAt_eq first rot0 hlen hm r0 i0 (r0 + 1) hi0half, if_neg hi00, hr0z]
      rcases hi0pm with hcast | hcast
      · have e1 : ((i0 : Nat) : ZMod m) - 1 - ρ = a := (hK1 _ hcast).1
        have e2 : -((i0 : Nat) : ZMod m) - 1 - ρ = b := (hK1 _ hcast).2
        rw [show rotElem m rot0 (((i0 : Nat) : ZMod m) - 1 - ρ) = x from by rw [e1]; exact ha,
          show rotElem m rot0 (-((i0 : Nat) : ZMod m) - 1 - ρ) = y from by rw [e2]; exact hb]
        simp [pairIs]
      · have e1 : ((i0 : Nat) : ZMod m) - 1 - ρ = b := (hK2 _ hcast).1
        have e2 : -((i0 : Nat) : ZMod m) - 1 - ρ = a := (hK2 _ hcast).2
        rw [show rotElem m rot0 (((i0 : Nat) : ZMod m) - 1 - ρ) = y from by rw [e1]; exact hb,
          show rotElem m rot0 (-((i0 : Nat) : ZMod m) - 1 - ρ) = x from by rw [e2]; exact ha]
        simp [pairIs]
    · intro i hi hp
      by_cases h0 : i = 0
      · exfalso
        rw [pairAt_eq first rot0 hlen hm r0 i (r0 + 1) hi, if_pos h0] at hp
        simp only [pairIs, Bool.or_eq_true, Bool.and_eq_true, beq_iff_eq] at hp
        rcases hp with ⟨h1, _⟩ | ⟨h1, _⟩
        · exact hxf h1.symm
        · exact hyf h1.symm
      · exact (hmain r0 hr0m i hi h0 hp).2
  rw [sum_map_range_single _ m r0 hr0m hzero]
  exact hone

theorem countP_range_sub (p : Nat → Bool) (k : Nat) :
    (List.range k).countP p = k - (List.range k).countP (fun i => !(p i)) := by
  have h := List.length_eq_countP_add_countP (l := List.range k) (p := p)
  rw [List.length_range] at h
  have h2 : (List.range k).countP (fun a => decide ¬p a = true) =
      (List.range k).countP (fun i => !(p i)) := by
    apply List.countP_congr
    intro i _
    cases p i <;> simp
  omega

theorem roundPairings_length_nobye (first : String) (rot0 : List String) {m : Nat}
    [NeZero m] (hlen : rot0.length = m) (hm : m % 2 = 1) (r week : Nat)
    (hbf : first ≠ byeMarker) (hbrot : byeMarker ∉ rot0) :
    (roundPairings first (m + 1) (rotateRight1^[r] rot0) week).length = (m + 1) / 2 := by
  rw [roundPairings_eq_filterMap, length_filterMap_eq_countP]
  rw [List.countP_eq_length.mpr, List.length_range]
  intro i hi
  have hi2 : i < (m + 1) / 2 := List.mem_range.mp hi
  rw [pairAt_eq first rot0 hlen hm r i week hi2]
  by_cases h0 : i = 0
  · rw [if_pos h0,
      if_pos ⟨hbf, fun he => hbrot (he ▸ rotElem_mem rot0 hlen _)⟩]
    rfl
  · rw [if_neg h0,
      if_pos ⟨fun he => hbrot (he ▸ rotElem_mem rot0 hlen _),
        fun he => hbrot (he ▸ rotElem_mem rot0 hlen _)⟩]
    rfl

theorem countP_range_all_but_one (p : Nat → Bool) :
    ∀ (k i0 : Nat), i0 < k → p i0 = false → (∀ i < k, i ≠ i0 → p i = true) →
      (List.range k).countP p = k - 1 := by
  intro k
  induction k with
  | zero => intro i0 h0; omega
  | succ k ih =>
    intro i0 h0 h1 h2
    rw [List.range_succ, List.countP_append]
    by_cases hi : i0 = k
    · subst hi
      rw [List.countP_eq_length.mpr
        (fun a ha => h2 a (by have := List.mem_range.mp ha; omega)
          (by have := List.mem_range.mp ha; omega))]
      rw [List.length_range]
      simp [List.countP_cons, h1]
    · rw [ih i0 (by omega) h1 (fun i hik hne => h2 i (by omega) hne)]
      simp [List.countP_cons, h2 k (by omega) (Ne.symm hi)]
      omega

theorem roundPairings_length_bye (first : String) (rot0 : List String) {m : Nat}
    [NeZero m] (hlen : rot0.length = m) (hm : m % 2 = 1) (r week : Nat)
    (hbf : first ≠ byeMarker) (hnd : (first :: rot0).Nodup) (hbrot : byeMarker ∈ rot0) :
    (roundPairings first (m + 1) (rotateRight1^[r] rot0) week).length =
      (m + 1) / 2 - 1 := by
  have hpos : 0 < m := Nat.pos_of_ne_zero (NeZero.ne m)
  have hndrot : rot0.Nodup := (List.nodup_cons.mp hnd).2
  obtain ⟨z1, hz1⟩ := rotElem_surj rot0 hlen hbrot
  rw [roundPairings_eq_filterMap, length_filterMap_eq_countP]
  set u : ZMod m := z1 + (r : ZMod m) + 1 with hudef
  have hforced : ∀ i, i < (m + 1) / 2 → i ≠ 0 →
      ¬((pairAt first (rotateRight1^[r] rot0) (m + 1) i week).homeTeamId ≠ byeMarker ∧
        (pairAt first (rotateRight1^[r] rot0) (m + 1) i week).awayTeamId ≠ byeMarker) →
      ((i : ZMod m) = u ∨ (i : ZMod m) = -u) := by
    intro i hi h0 hc
    rw [pairAt_eq first rot0 hlen hm r i week hi, if_neg h0] at hc
    rw [not_and_or, not_not, not_not] at hc
    rcases hc with hc | hc
    · left
      have he := rotElem_inj rot0 hlen hndrot (hc.trans hz1.symm)
      rw [hudef, ← he]
      ring
    · right
      have he := rotElem_inj rot0 hlen hndrot (hc.trans hz1.symm)
      rw [hudef, ← he]
      ring
  have hzero_drop : ¬((pairAt first (rotateRight1^[r] rot0) (m + 1) 0 week).homeTeamId ≠
        byeMarker ∧
      (pairAt first (rotateRight1^[r] rot0) (m + 1) 0 week).awayTeamId ≠ byeMarker) ↔
      u = 0 := by
    rw [pairAt_eq first rot0 hlen hm r 0 week (by omega), if_pos rfl]
    constructor
    · intro hc
      rw [not_and_or, not_not, not_not] at hc
      rcases hc with hc | hc
      · exact absurd hc hbf
      · have he := rotElem_inj rot0 hlen hndrot (hc.trans hz1.symm)
        rw [hudef, ← he]
        ring
    · intro hu hc
      apply hc.2
      rw [show -1 - (r : ZMod m) = z1 from by
        have h0 : z1 + (r : ZMod m) + 1 = 0 := by rw [← hudef]; exact hu
        linear_combination -h0]
      exact hz1
  by_cases hu : u = 0
  · apply countP_range_all_but_one _ ((m + 1) / 2) 0 (by omega)
    · have hncond := hzero_drop.mpr hu
      simp only [if_neg hncond, Option.isSome_none]
    · intro i hi hne
      have hcond : (pairAt first (rotateRight1^[r] rot0) (m + 1) i week).homeTeamId ≠
          byeMarker ∧
          (pairAt first (rotateRight1^[r] rot0) (m + 1) i week).awayTeamId ≠ byeMarker := by
        by_contra hc
        have hdisj := hforced i hi hne hc
        rw [hu] at hdisj
        simp only [neg_zero] at hdisj
        have hz : (i : ZMod m) = 0 := by
          rcases hdisj with h | h <;> exact h
        have hval := congrArg ZMod.val hz
        rw [ZMod.val_natCast, ZMod.val_zero] at hval
        rw [Nat.mod_eq_of_lt (by omega : i < m)] at hval
        exact hne hval
      simp only [if_pos hcond, Option.isSome_some]
  · obtain ⟨hu1, hu2, hupm⟩ := halfRep_mem hm u hu
    apply countP_range_all_but_one _ ((m + 1) / 2) (halfRep m u) (by omega)
    · have hncond : ¬((pairAt first (rotateRight1^[r] rot0) (m + 1) (halfRep m u)
            week).homeTeamId ≠ byeMarker ∧
          (pairAt first (rotateRight1^[r] rot0) (m + 1) (halfRep m u)
            week).awayTeamId ≠ byeMarker) := by
        rw [pairAt_eq first rot0 hlen hm r (halfRep m u) week (by omega),
          if_neg (by omega : ¬halfRep m u = 0)]
        rcases hupm with hcast | hcast
        · intro hcc
          apply hcc.1
          rw [show ((halfRep m u : Nat) : ZMod m) - 1 - (r : ZMod m) = z1 from by
            rw [hcast, hudef]
            ring]
          exact hz1
        · intro hcc
          apply hcc.2
          rw [show -((halfRep m u : Nat) : ZMod m) - 1 - (r : ZMod m) = z1 from by
            rw [hcast, hudef]
            ring]
          exact hz1
      simp only [if_neg hncond, Option.isSome_none]
    · intro i hi hne
      have hcond : (pairAt first (rotateRight1^[r] rot0) (m + 1) i week).homeTeamId ≠
          byeMarker ∧
          (pairAt first (rotateRight1^[r] rot0) (m + 1) i week).awayTeamId ≠ byeMarker := by
        by_contra hc
        by_cases h0 : i = 0
        · apply hu
          apply hzero_drop.mp
          rw [← h0]
          exact hc
        · exact hne (halfRep_unique hm u hu i (by omega) (by omega) (hforced i hi h0 hc))
      simp only [if_pos hcond, Option.isSome_some]

theorem pairIs_comm (x y : String) (p : RRMatch) : pairIs x y p = pairIs y x p := by
  unfold pairIs
  exact Bool.or_comm _ _

theorem rrRaw_pair_count (first : String) (rot0 : List String) {m : Nat} [NeZero m]
    (hlen : rot0.length = m) (hm : m % 2 = 1) (hnd : (first :: rot0).Nodup)
    (x y : String) (hx : x ∈ first :: rot0) (hy : y ∈ first :: rot0)
    (hxy : x ≠ y) (hbx : x ≠ byeMarker) (hby : y ≠ byeMarker) :
    (rrRaw first rot0).countP (pairIs x y) = 1 := by
  rcases List.mem_cons.mp hx with hx1 | hxr
  · rcases List.mem_cons.mp hy with hy1 | hyr
    · exact absurd (hx1.trans hy1.symm) hxy
    · rw [hx1]
      exact rrRaw_count_first first rot0 hlen hm hnd y hyr (hx1 ▸ hbx) hby
  · rcases List.mem_cons.mp hy with hy1 | hyr
    · have hcomm : (fun p => pairIs x y p) = (fun p => pairIs y x p) :=
        funext (pairIs_comm x y)
      show (rrRaw first rot0).countP (fun p => pairIs x y p) = 1
      rw [hcomm, hy1]
      exact rrRaw_count_first first rot0 hlen hm hnd x hxr (hy1 ▸ hby) hbx
    · exact rrRaw_count_rot first rot0 hlen hm hnd x y hxr hyr hxy hbx hby

theorem buildRoundRobin_spec (ids : List String) (hlen : 2 ≤ ids.length)
    (hnd : ids.Nodup) (hbye : byeMarker ∉ ids) :
    (∀ p ∈ buildRoundRobin ids,
      1 ≤ p.week ∧ p.week ≤ 2 * ((ids.length + 1) / 2) - 1) ∧
    (∀ w, 1 ≤ w → w ≤ 2 * ((ids.length + 1) / 2) - 1 →
      (buildRoundRobin ids).countP (fun p => p.week == w) = ids.length / 2) ∧
    (∀ x ∈ ids, ∀ y ∈ ids, x ≠ y →
      (buildRoundRobin ids).countP (pairIs x y) = 1) := by
  have htlen : (paddedTeams ids).length = 2 * ((ids.length + 1) / 2) := by
    unfold paddedTeams
    split_ifs with h
    · rw [List.length_append]
      simp only [List.length_singleton]
      omega
    · omega
  obtain ⟨f0, t0, hpt⟩ : ∃ f0 t0, paddedTeams ids = f0 :: t0 := by
    cases h : paddedTeams ids with
    | nil =>
      rw [h] at htlen
      simp at htlen
      omega
    | cons a t => exact ⟨a, t, rfl⟩
  have hm : t0.length = 2 * ((ids.length + 1) / 2) - 1 := by
    have := congrArg List.length hpt
    rw [htlen] at this
    simp only [List.length_cons] at this
    omega
  haveI : NeZero (2 * ((ids.length + 1) / 2) - 1) := ⟨by omega⟩
  have hmodd : (2 * ((ids.length + 1) / 2) - 1) % 2 = 1 := by omega
  have hndt : (paddedTeams ids).Nodup := by
    unfold paddedTeams
    split_ifs with h
    · rw [List.nodup_append]
      refine ⟨hnd, List.nodup_singleton _, ?_⟩
      intro a ha hb
      simp only [List.mem_singleton] at hb
      exact hbye (hb ▸ ha)
    · exact hnd
  have hndcons : (f0 :: t0).Nodup := hpt ▸ hndt
  obtain ⟨x0, ids', hids⟩ : ∃ x0 ids', ids = x0 :: ids' := by
    cases ids with
    | nil => simp at hlen
    | cons a t => exact ⟨a, t, rfl⟩
  have hf0 : f0 = x0 := by
    have hpt2 := hpt
    rw [hids] at hpt2
    unfold paddedTeams at hpt2
    split_ifs at hpt2 with h
    · rw [List.cons_append] at hpt2
      injection hpt2 with h1 _
      exact h1.symm
    · injection hpt2 with h1 _
      exact h1.symm
  have hf0ids : f0 ∈ ids := by
    rw [hf0, hids]
    exact List.mem_cons_self _ _
  have hf0bye : f0 ≠ byeMarker := fun he => hbye (he ▸ hf0ids)
  have hmem : ∀ z ∈ ids, z ∈ f0 :: t0 := by
    intro z hz
    rw [← hpt]
    unfold paddedTeams
    split_ifs
    · exact List.mem_append_left _ hz
    · exact hz
  have hbrr : buildRoundRobin ids = rrRaw f0 t0 := by
    rw [buildRoundRobin_eq_flat, hpt]
    unfold rrRaw
    simp
  refine ⟨?_, ?_, ?_⟩
  · intro p hp
    rw [hbrr] at hp
    unfold rrRaw at hp
    obtain ⟨r, hr, hpr⟩ := List.mem_flatMap.mp hp
    have hw := mem_roundPairings_week _ _ _ _ _ hpr
    have hrm : r < t0.length := List.mem_range.mp hr
    rw [hw]
    omega
  · intro w hw1 hw2
    rw [hbrr]
    unfold rrRaw
    rw [hm, List.countP_flatMap]
    have hval : ∀ r ∈ List.range (2 * ((ids.length + 1) / 2) - 1),
        (List.countP (fun p => p.week == w) ∘ fun r =>
          roundPairings f0 (2 * ((ids.length + 1) / 2) - 1 + 1) (rotateRight1^[r] t0)
            (r + 1)) r =
        (fun r => if r + 1 = w then
          (roundPairings f0 (2 * ((ids.length + 1) / 2) - 1 + 1) (rotateRight1^[r] t0)
            (r + 1)).length
         else 0) r := by
      intro r _
      exact countP_roundPairings_week f0 _ (rotateRight1^[r] t0) (r + 1) w
    rw [List.map_congr_left hval]
    have hzero : ∀ r < 2 * ((ids.length + 1) / 2) - 1, r ≠ w - 1 →
        (fun r => if r + 1 = w then
          (roundPairings f0 (2 * ((ids.length + 1) / 2) - 1 + 1) (rotateRight1^[r] t0)
            (r + 1)).length
         else 0) r = 0 := by
      intro r hr hrne
      exact if_neg (by omega)
    rw [sum_map_range_single _ _ (w - 1) (by omega) hzero]
    show (if (w - 1) + 1 = w then
      (roundPairings f0 (2 * ((ids.length + 1) / 2) - 1 + 1) (rotateRight1^[w - 1] t0)
        ((w - 1) + 1)).length
     else 0) = ids.length / 2
    rw [if_pos (by omega)]
    by_cases hpar : ids.length % 2 = 0
    · have hnb : byeMarker ∉ t0 := by
        intro hb
        apply hbye
        have hmem2 : byeMarker ∈ paddedTeams ids := by
          rw [hpt]
          exact List.mem_cons_of_mem _ hb
        unfold paddedTeams at hmem2
        rw [if_neg (by omega)] at hmem2
        exact hmem2
      rw [roundPairings_length_nobye f0 t0 hm hmodd (w - 1) ((w - 1) + 1) hf0bye hnb]
      omega
    · have hb : byeMarker ∈ t0 := by
        have hmem2 : byeMarker ∈ paddedTeams ids := by
          unfold paddedTeams
          rw [if_pos (by omega)]
          exact List.mem_append_right _ (by simp)
        rw [hpt] at hmem2
        rcases List.mem_cons.mp hmem2 with h | h
        · exact absurd h.symm hf0bye
        · exact h
      rw [roundPairings_length_bye f0 t0 hm hmodd (w - 1) ((w - 1) + 1) hf0bye hndcons hb]
      omega
  · intro x hx y hy hxy
    rw [hbrr]
    exact rrRaw_pair_count f0 t0 hm hmodd hndcons x y (hmem x hx) (hmem y hy) hxy
      (fun he => hbye (he ▸ hx)) (fun he => hbye (he ▸ hy))

/-- C5: for every list of `n ≥ 2` distinct team ids (none equal to the
internal bye sentinel — real ids are database-generated), `buildRoundRobin`
produces the weeks `1 .. M - 1` where `M = 2 * ((n + 1) / 2)` is `n`
rounded up to the next even number, every week carries exactly `⌊n / 2⌋`
matches, and every unordered pair of real teams appears in exactly one
match of the season.  In particular 4 teams give 3 weeks of 2 matches each,
and 5 teams give 5 weeks of 2 matches each with every team having exactly
one bye week. -/
theorem C5_round_robin_schedule :
    (∀ ids : List String, 2 ≤ ids.length → ids.Nodup → byeMarker ∉ ids →
      (∀ p ∈ buildRoundRobin ids,
        1 ≤ p.week ∧ p.week ≤ 2 * ((ids.length + 1) / 2) - 1) ∧
      (∀ w, 1 ≤ w → w ≤ 2 * ((ids.length + 1) / 2) - 1 →
        (buildRoundRobin ids).countP (fun p => p.week == w) = ids.length / 2) ∧
      (∀ x ∈ ids, ∀ y ∈ ids, x ≠ y →
        (buildRoundRobin ids).countP (pairIs x y) = 1)) ∧
    ((buildRoundRobin ["t1", "t2", "t3", "t4"]).map (fun p => p.week) =
      [1, 1, 2, 2, 3, 3]) ∧
    ((buildRoundRobin ["t1", "t2", "t3", "t4", "t5"]).map (fun p => p.week) =
      [1, 1, 2, 2, 3, 3, 4, 4, 5, 5]) ∧
    (∀ t ∈ ["t1", "t2", "t3", "t4", "t5"],
      (List.range 5).countP (fun w =>
        decide (∀ p ∈ buildRoundRobin ["t1", "t2", "t3", "t4", "t5"],
          p.week = w + 1 → p.homeTeamId ≠ t ∧ p.awayTeamId ≠ t)) = 1) :=
  ⟨buildRoundRobin_spec, by decide, by decide, by decide⟩

/-- Witness for C5 at a concrete input: four distinct teams give two
matches in week 1 and exactly one match between teams `a` and `c` across
the season. -/
theorem C5_round_robin_schedule_witness :
    (buildRoundRobin ["a", "b", "c", "d"]).countP (fun p => p.week == 1) =
      ["a", "b", "c", "d"].length / 2 ∧
    (buildRoundRobin ["a", "b", "c", "d"]).countP (pairIs "a" "c") = 1 := by
  have h := C5_round_robin_schedule.1 ["a", "b", "c", "d"] (by decide) (by decide)
    (by decide)
  exact ⟨h.2.1 1 (by decide) (by decide),
    h.2.2 "a" (by decide) "c" (by decide) (by decide)⟩

end Dbbl
